import Mathlib

/-!
# dbdeployer, `sandbox/multiple.go`: `CreateMultipleSandbox`

A shallow embedding of `CreateMultipleSandbox` (the only function of
`sandbox/multiple.go`) and proofs about the order and the arguments of the
calls it makes to its collaborators.

Modelling conventions.

* Go `int` is a 64-bit signed integer whose arithmetic wraps around silently.
  Values are carried as `Int`; every arithmetic operation of the source on a port
  (lines 64, 71, 72, 73, 123, 140-143) is the wrapping one (`add64`, `sub64`,
  `mul64`), because its operands come from the request and from collaborators and
  can be any `int`.  The loop counter `i` of line 122 and the product
  `(base_server_id + i) * 100` of line 135 are left exact: `i` is at most one more
  than the number of installer calls already made, so they could wrap only after
  more than 2^62 installer calls.
* The function is effectful.  A run is modelled as the list of collaborator
  calls it makes, in program order (`Run.trace`), together with the way it
  ends (`Run.val`): a returned value, a `common.Exit`/`common.Exitf` issued by
  the function itself, an index panic, or a collaborator that never returned.
* Collaborators declared outside `multiple.go` (`common.FindFreePort`,
  `CheckPort`, `CreateSingleSandbox`, ...) are fields of `World`.  A
  collaborator that may end the process returns `Option` (or `Bool` when it
  has no result): `none`/`false` means the call did not return.
* A call is recorded when it is made, whether or not it returns; a later call in
  the trace therefore shows that the earlier ones returned.
* `logger.Printf` and `fmt.Printf` lines only write text and are not recorded.
* The loops of lines 73-75 and 122-171 are recursions on the number of iterations
  left; `checkPorts_fuel` and `nodeLoop_fuel` show that this number is enough.
-/

namespace DBDeployer

/-! ## Data model -/

/-- The fields of `sandbox.SandboxDef` that `CreateMultipleSandbox` reads or writes.
`Logger` is `none` for a nil pointer. -/
structure SandboxDef where
  DirName : String
  SBType : String
  Multi : Bool
  NodeNum : Int
  Version : String
  Basedir : String
  SandboxDir : String
  LoadGrants : Bool
  InstalledPorts : List Int
  Port : Int
  MysqlXPort : Int
  BasePort : Int
  Prompt : String
  ServerId : Int
  ReplOptions : String
  LogFileName : String
  Logger : Option String
  DisableMysqlX : Bool
  RunConcurrently : Bool
  deriving DecidableEq, Repr

/-- One element of `concurrent.ExecutionList`: a priority tier and a command. -/
structure ExecutionList where
  Priority : Int
  Command : String
  deriving DecidableEq, Repr

/-- The record `common.SandboxDescription` as filled in at lines 97-105. -/
structure SandboxDescription where
  Basedir : String
  SBType : String
  Version : String
  Port : List Int
  Nodes : Int
  NodeNum : Int
  LogFile : String
  deriving DecidableEq, Repr

/-- The record `defaults.SandboxItem` as filled in at lines 107-118. -/
structure SandboxItem where
  Origin : String
  SBType : String
  Version : String
  Port : List Int
  Nodes : List String
  Destination : String
  LogDirectory : String
  deriving DecidableEq, Repr

/-- One element of `data["Nodes"]` (lines 124-132). -/
structure NodeEntry where
  Copyright : String
  AppVersion : String
  DateTime : String
  Node : Int
  NodePort : Int
  NodeLabel : String
  SandboxDir : String
  deriving DecidableEq, Repr

/-- The map `data` returned by the function (lines 89-95). -/
structure MultiData where
  Copyright : String
  AppVersion : String
  DateTime : String
  SandboxDir : String
  Nodes : List NodeEntry
  deriving DecidableEq, Repr

/-- The map `data_node` handed to the node script writer (lines 161-167). -/
structure NodeData where
  Node : Int
  NodePort : Int
  NodeLabel : String
  SandboxDir : String
  Copyright : String
  deriving DecidableEq, Repr

/-- The `common.Smap` argument of `write_script`: either `data` or `data_node`. -/
inductive ScriptData where
  | multi (d : MultiData)
  | node (d : NodeData)
  deriving DecidableEq, Repr

/-- The function value passed to `common.AddToCleanupStack`. -/
inductive CleanupFunc where
  | Rmdir
  deriving DecidableEq, Repr

/-- A call made by `CreateMultipleSandbox` to a collaborator, with its arguments. -/
inductive Event where
  | NewLogger (logDir sbType : String)
  | CheckDirectory (sdef : SandboxDef)
  | FindFreePort (basePort : Int) (installedPorts : List Int) (howMany : Int)
  | CheckPort (caller sandboxDir : String) (installedPorts : List Int) (port : Int)
  | get_base_mysqlx_port (basePort : Int) (sdef : SandboxDef) (nodes : Int)
  | Mkdir (dir : String)
  | AddToCleanupStack (fn : CleanupFunc) (name arg : String)
  | CreateSingleSandbox (sdef : SandboxDef)
  | write_script (name template dir : String) (data : ScriptData) (makeExecutable : Bool)
  | WriteSandboxDescription (dir : String) (desc : SandboxDescription)
  | UpdateCatalog (dir : String) (item : SandboxItem)
  | RunParallelTasksByPriority (lists : List ExecutionList)
  deriving DecidableEq, Repr

/-- How a run ends when it does not return. -/
inductive Stop where
  /-- An exit issued by the function itself: `common.Exit(code, msg)` or
  `common.Exitf(code, ...)`. -/
  | exit (code : Int) (msg : String)
  /-- Index out of range at `vList[2]`. -/
  | panic
  /-- The last collaborator called did not return. -/
  | callee
  deriving DecidableEq, Repr

/-- A run: the collaborator calls made so far and the way the run ended. -/
structure Run (α : Type) where
  trace : List Event
  val : Except Stop α

namespace Run

/-- Returning without any call. -/
def ret {α : Type} (a : α) : Run α := ⟨[], .ok a⟩

/-- Sequencing: the second part runs only when the first one returned. -/
def andThen {α β : Type} (m : Run α) (f : α → Run β) : Run β :=
  match m.val with
  | .error s => ⟨m.trace, .error s⟩
  | .ok a => ⟨m.trace ++ (f a).trace, (f a).val⟩

instance : Monad Run where
  pure := ret
  bind := andThen

/-- A call to a collaborator that yields a result, or does not return. -/
def call {α : Type} (e : Event) (r : Option α) : Run α :=
  match r with
  | some a => ⟨[e], .ok a⟩
  | none => ⟨[e], .error .callee⟩

/-- A call to a collaborator without result; `returned = false`: it did not return. -/
def act (e : Event) (returned : Bool) : Run Unit :=
  if returned then ⟨[e], .ok ()⟩ else ⟨[e], .error .callee⟩

/-- A call to a collaborator that always returns. -/
def emit (e : Event) : Run Unit := ⟨[e], .ok ()⟩

/-- The calls `common.Exit` and `common.Exitf`: the process ends with the given code. -/
def exit {α : Type} (code : Int) (msg : String) : Run α := ⟨[], .error (.exit code msg)⟩

/-- A Go run-time panic. -/
def panic {α : Type} : Run α := ⟨[], .error .panic⟩

end Run

/-- The three fields of `defaults.Defaults()` that the function reads. -/
structure Defaults where
  MultiplePrefix : String
  MultipleBasePort : Int
  NodePrefix : String

/-- Everything `CreateMultipleSandbox` takes from outside `multiple.go`. -/
structure World where
  Defaults : Defaults
  /-- The package constant `Copyright`. -/
  Copyright : String
  /-- The constant `common.VersionDef`. -/
  VersionDef : String
  /-- The text `time.Now().Format(time.UnixDate)`. -/
  DateTime : String
  /-- The text `SingleTemplates["replication_options"].Contents`. -/
  ReplicationOptions : String
  LogDirName : String
  /-- The file name returned by `defaults.NewLogger`; `none` when it does not return. -/
  NewLogger : String → String → Option String
  ReplaceLiteralHome : String → String
  DirExists : String → Bool
  VersionToName : String → String
  VersionToList : String → List Int
  GreaterOrEqualVersion : String → List Int → Bool
  DirName : String → String
  CheckDirectory : SandboxDef → Option SandboxDef
  FindFreePort : Int → List Int → Int → Option Int
  /-- The function `CheckPort` has no result: `true` when it returns, `false` when it
  ends the process. -/
  CheckPort : String → String → List Int → Int → Bool
  get_base_mysqlx_port : Int → SandboxDef → Int → Option Int
  Mkdir : String → Bool
  CreateSingleSandbox : SandboxDef → Option (List ExecutionList)
  write_script : String → String → String → ScriptData → Bool → Bool
  WriteSandboxDescription : String → SandboxDescription → Bool
  UpdateCatalog : String → SandboxItem → Bool
  RunParallelTasksByPriority : List ExecutionList → Bool

/-! ## Go integer arithmetic -/

/-- The value that a 64-bit signed Go `int` takes for the exact result `x`:
the representative of `x` modulo 2^64 between -2^63 and 2^63 - 1. -/
def wrap64 (x : Int) : Int :=
  (x + 9223372036854775808) % 18446744073709551616 - 9223372036854775808

/-- Go `a + b` on `int`. -/
def add64 (a b : Int) : Int := wrap64 (a + b)

/-- Go `a - b` on `int`. -/
def sub64 (a b : Int) : Int := wrap64 (a - b)

/-- Go `a * b` on `int`. -/
def mul64 (a b : Int) : Int := wrap64 (a * b)

/-- The largest Go `int`, 2^63 - 1. -/
def maxInt64 : Int := 9223372036854775807

/-! ## The function -/

/-- Lines 64-67: the base port asked for, before the allocator is consulted. -/
def requestedBasePort (w : World) (sdef : SandboxDef) (rev : Int) : Int :=
  let base_port := add64 (add64 sdef.Port w.Defaults.MultipleBasePort) (mul64 rev 100)
  if sdef.BasePort > 0 then sdef.BasePort else base_port

/-- Lines 73-75: `for check_port := ...; check_port < limit; check_port++ { CheckPort(...) }`.
The first argument counts the iterations still possible; the caller passes
`(limit - check_port).toNat`, which is exactly the number of iterations (the
increment cannot wrap while `check_port < limit`). -/
def checkPorts (w : World) (sdef : SandboxDef) (limit : Int) : Nat → Int → Run Unit
  | 0, _ => pure ()
  | n + 1, check_port =>
    if check_port < limit then do
      Run.act (.CheckPort "CreateMultipleSandbox" sdef.SandboxDir sdef.InstalledPorts check_port)
        (w.CheckPort "CreateMultipleSandbox" sdef.SandboxDir sdef.InstalledPorts check_port)
      checkPorts w sdef limit n (add64 check_port 1)
    else pure ()

/-- The local variables alive after line 76. -/
structure Allocated where
  sb_type : String
  Basedir : String
  sdef : SandboxDef
  rev : Int
  first_port : Int
  base_port : Int
  base_mysqlx_port : Int
  deriving DecidableEq, Repr

/-- Lines 42-48: the logger of the request is used when there is one; otherwise a
new logger is made and its file name is stored in `sdef.LogFileName`. -/
def openLogger (w : World) (sb_type : String) (sdef : SandboxDef) : Run SandboxDef :=
  match sdef.Logger with
  | some _ => pure sdef
  | none => do
    let fileName ← Run.call (.NewLogger w.LogDirName sb_type) (w.NewLogger w.LogDirName sb_type)
    pure { sdef with LogFileName := w.ReplaceLiteralHome fileName }

/-- Lines 53-57: the sandbox directory gets the name of the group appended. -/
def setSandboxDir (w : World) (origin : String) (sdef : SandboxDef) : SandboxDef :=
  if sdef.DirName = "" then
    { sdef with SandboxDir := sdef.SandboxDir ++ ("/" ++ w.Defaults.MultiplePrefix ++ w.VersionToName origin) }
  else
    { sdef with SandboxDir := sdef.SandboxDir ++ ("/" ++ sdef.DirName) }

/-- Lines 58-60: an existing sandbox directory is handed to `CheckDirectory`. -/
def checkExisting (w : World) (sdef : SandboxDef) : Run SandboxDef :=
  if w.DirExists sdef.SandboxDir then
    Run.call (.CheckDirectory sdef) (w.CheckDirectory sdef)
  else pure sdef

/-- Lines 36-76 of `CreateMultipleSandbox`: logger, directory checks, port allocation
and the re-validation loop, up to the base of the mysqlx ports. -/
def allocate (w : World) (sdef : SandboxDef) (origin : String) (nodes : Int) : Run Allocated := do
  let sb_type := if sdef.SBType = "" then "multiple" else sdef.SBType
  let sdef ← openLogger w sb_type sdef
  let Basedir := sdef.Basedir
  (if !w.DirExists Basedir then
    Run.exit 1 ("Base directory " ++ Basedir ++ " does not exist")
  else pure ())
  let sdef ← checkExisting w (setSandboxDir w origin sdef)
  let vList := w.VersionToList sdef.Version
  match vList[2]? with
  | none => Run.panic
  | some rev =>
    let base_port := requestedBasePort w sdef rev
    let first_port ← Run.call (.FindFreePort (add64 base_port 1) sdef.InstalledPorts nodes)
      (w.FindFreePort (add64 base_port 1) sdef.InstalledPorts nodes)
    let base_port := sub64 first_port 1
    checkPorts w sdef (add64 base_port nodes)
      (add64 base_port nodes - add64 base_port 1).toNat (add64 base_port 1)
    let base_mysqlx_port ← Run.call (.get_base_mysqlx_port base_port sdef nodes)
      (w.get_base_mysqlx_port base_port sdef nodes)
    pure { sb_type := sb_type, Basedir := Basedir, sdef := sdef, rev := rev,
           first_port := first_port, base_port := base_port,
           base_mysqlx_port := base_mysqlx_port }

/-- The variables that the node loop (lines 122-171) updates. -/
structure LoopState where
  sdef : SandboxDef
  dataNodes : List NodeEntry
  sb_desc : SandboxDescription
  sb_item : SandboxItem
  exec_lists : List ExecutionList
  deriving DecidableEq, Repr

/-- Lines 123-150: the assignments to `sdef` made in the iteration for node `i`. -/
def nodeDef (w : World) (sb_type node_label : String) (base_port base_mysqlx_port : Int)
    (sdef : SandboxDef) (i : Int) : SandboxDef :=
  let base_server_id : Int := 0
  let sdef := { sdef with Port := add64 base_port i }
  let sdef := { sdef with LoadGrants := true }
  let sdef := { sdef with DirName := node_label ++ toString i }
  let sdef := { sdef with ServerId := (base_server_id + i) * 100 }
  let sdef :=
    if w.GreaterOrEqualVersion sdef.Version [8, 0, 11] then
      { sdef with MysqlXPort := add64 base_mysqlx_port i }
    else sdef
  let sdef := { sdef with Multi := true }
  let sdef := { sdef with NodeNum := i }
  let sdef := { sdef with Prompt := node_label ++ toString i }
  { sdef with SBType := sb_type ++ "-node" }

/-- Lines 137-146: the ports appended to `sb_item.Port` and to `sb_desc.Port` in the
iteration for node `i`. -/
def nodePorts (w : World) (base_port base_mysqlx_port : Int) (sdef : SandboxDef) (i : Int) :
    List Int :=
  let ports := [add64 base_port i]
  if w.GreaterOrEqualVersion sdef.Version [8, 0, 11] then
    if !sdef.DisableMysqlX then ports ++ [add64 base_mysqlx_port i] else ports
  else ports

/-- Lines 122-171: `for i := 1; i <= nodes; i++ { ... }`.  The first argument counts
the iterations still possible; the caller passes `nodes.toNat` with `i = 1`. -/
def nodeLoop (w : World) (sb_type node_label : String) (base_port base_mysqlx_port nodes : Int) :
    Nat → Int → LoopState → Run LoopState
  | 0, _, st => pure st
  | n + 1, i, st =>
    if i ≤ nodes then do
      let sdef := nodeDef w sb_type node_label base_port base_mysqlx_port st.sdef i
      let dataNodes := st.dataNodes ++ [{
        Copyright := w.Copyright, AppVersion := w.VersionDef, DateTime := w.DateTime,
        Node := i, NodePort := sdef.Port, NodeLabel := node_label,
        SandboxDir := sdef.SandboxDir }]
      let sb_item := { st.sb_item with
        Nodes := st.sb_item.Nodes ++ [sdef.DirName],
        Port := st.sb_item.Port ++ nodePorts w base_port base_mysqlx_port st.sdef i }
      let sb_desc := { st.sb_desc with
        Port := st.sb_desc.Port ++ nodePorts w base_port base_mysqlx_port st.sdef i }
      let exec_list ← Run.call (.CreateSingleSandbox sdef) (w.CreateSingleSandbox sdef)
      let exec_lists := exec_list.foldl (fun acc list => acc ++ [list]) st.exec_lists
      let data_node : NodeData := {
        Node := i, NodePort := sdef.Port, NodeLabel := node_label,
        SandboxDir := sdef.SandboxDir, Copyright := w.Copyright }
      Run.act (.write_script ("n" ++ toString i) "node_template" sdef.SandboxDir (.node data_node) true)
        (w.write_script ("n" ++ toString i) "node_template" sdef.SandboxDir (.node data_node) true)
      nodeLoop w sb_type node_label base_port base_mysqlx_port nodes n (i + 1)
        { sdef := sdef, dataNodes := dataNodes, sb_desc := sb_desc, sb_item := sb_item,
          exec_lists := exec_lists }
    else pure st

/-- One of the eight `write_script` calls of lines 177-184. -/
def writeMulti (w : World) (name template dir : String) (data : MultiData) : Run Unit :=
  Run.act (.write_script name template dir (.multi data) true)
    (w.write_script name template dir (.multi data) true)

/-- Lines 172-191: description, catalog, the scripts of the whole group, and the
run of the collected execution lists. -/
def finish (w : World) (st : LoopState) (data : MultiData) : Run MultiData := do
  let sdef := st.sdef
  Run.act (.WriteSandboxDescription sdef.SandboxDir st.sb_desc)
    (w.WriteSandboxDescription sdef.SandboxDir st.sb_desc)
  Run.act (.UpdateCatalog sdef.SandboxDir st.sb_item) (w.UpdateCatalog sdef.SandboxDir st.sb_item)
  writeMulti w "start_all" "start_multi_template" sdef.SandboxDir data
  writeMulti w "restart_all" "restart_multi_template" sdef.SandboxDir data
  writeMulti w "status_all" "status_multi_template" sdef.SandboxDir data
  writeMulti w "test_sb_all" "test_sb_multi_template" sdef.SandboxDir data
  writeMulti w "stop_all" "stop_multi_template" sdef.SandboxDir data
  writeMulti w "clear_all" "clear_multi_template" sdef.SandboxDir data
  writeMulti w "send_kill_all" "send_kill_multi_template" sdef.SandboxDir data
  writeMulti w "use_all" "use_multi_template" sdef.SandboxDir data
  Run.act (.RunParallelTasksByPriority st.exec_lists) (w.RunParallelTasksByPriority st.exec_lists)
  pure data

/-- The text of the exit at line 86. -/
def onlyOneNode : String :=
  "Only one node requested. For single sandbox deployment, use the \x27single\x27 command"

/-- Lines 97-118: the loop variables before the first iteration. -/
def initialState (w : World) (Basedir : String) (sdef : SandboxDef) (nodes : Int) : LoopState :=
  let sb_desc : SandboxDescription := {
    Basedir := Basedir, SBType := sdef.SBType, Version := sdef.Version, Port := [],
    Nodes := nodes, NodeNum := 0, LogFile := sdef.LogFileName }
  let sb_item : SandboxItem := {
    Origin := sb_desc.Basedir, SBType := sb_desc.SBType, Version := sdef.Version, Port := [],
    Nodes := [], Destination := sdef.SandboxDir, LogDirectory := "" }
  let sb_item :=
    if sdef.LogFileName ≠ "" then { sb_item with LogDirectory := w.DirName sdef.LogFileName }
    else sb_item
  { sdef := sdef, dataNodes := [], sb_desc := sb_desc, sb_item := sb_item, exec_lists := [] }

/-- Lines 83-191 of `CreateMultipleSandbox`: the node-count guard, the node loop and
the final calls, run on the variables left by lines 36-81. -/
def provision (w : World) (a : Allocated) (nodes : Int) : Run MultiData := do
  let sdef := { a.sdef with ReplOptions := w.ReplicationOptions }
  (if nodes < 2 then
    Run.exit 1 onlyOneNode
  else pure ())
  let node_label := w.Defaults.NodePrefix
  let st ← nodeLoop w a.sb_type node_label a.base_port a.base_mysqlx_port nodes
    nodes.toNat 1 (initialState w a.Basedir sdef nodes)
  let data : MultiData := {
    Copyright := w.Copyright, AppVersion := w.VersionDef, DateTime := w.DateTime,
    SandboxDir := sdef.SandboxDir, Nodes := st.dataNodes }
  finish w st data

/-- The function `CreateMultipleSandbox(sdef, origin, nodes)` of `sandbox/multiple.go`:
lines 36-76 (`allocate`), the directory creation of line 77, the cleanup
registration of line 81, and lines 83-191 (`provision`). -/
def CreateMultipleSandbox (w : World) (sdef : SandboxDef) (origin : String) (nodes : Int) :
    Run MultiData := do
  let a ← allocate w sdef origin nodes
  Run.act (.Mkdir a.sdef.SandboxDir) (w.Mkdir a.sdef.SandboxDir)
  Run.emit (.AddToCleanupStack .Rmdir "Rmdir" a.sdef.SandboxDir)
  provision w a nodes

/-! ## A reference allocator and a concrete world -/

/-- Modelled from the spec: the block test of the PortAllocator of section 4.1
(`common.FindFreePort` is declared outside `multiple.go`): the `k` ports starting
at `p` are all absent from the reserved set. -/
def blockFree (installed : List Int) (p : Int) : Nat → Bool
  | 0 => true
  | k + 1 => !installed.contains p && blockFree installed (p + 1) k

/-- Modelled from the spec: the PortAllocator of section 4.1 (`common.FindFreePort`
is declared outside `multiple.go`).  Candidate starting ports are scanned in
increasing order from `start`, each block is tested as a unit, and the search
gives up after `horizon` candidates. -/
def lowestFreeBlock (installed : List Int) (k : Nat) : Nat → Int → Option Int
  | 0, _ => none
  | horizon + 1, start =>
    if blockFree installed start k then some start
    else lowestFreeBlock installed k horizon (start + 1)

/-- Modelled from the spec: the re-validation of one port against the reserved set
(section 4.1; `CheckPort` is declared outside `multiple.go`): it returns exactly
when the port is not reserved. -/
def portNotReserved (installed : List Int) (port : Int) : Bool :=
  !installed.contains port

/-- A world in which every collaborator returns: the allocator is `lowestFreeBlock`
with a horizon of 100 candidates, `CheckPort` is `portNotReserved`, the version
`x.y.z` is read off a fixed table, and the installer returns two steps per node. -/
def sampleWorld : World where
  Defaults := { MultiplePrefix := "multi_msb_", MultipleBasePort := 16000, NodePrefix := "node" }
  Copyright := "(c)"
  VersionDef := "1.8.0"
  DateTime := "Mon Jan  1 00:00:00 UTC 2018"
  ReplicationOptions := "relay-log"
  LogDirName := "/logs"
  NewLogger := fun dir sbType => some (dir ++ "/" ++ sbType ++ ".log")
  ReplaceLiteralHome := fun s => s
  DirExists := fun d => d == "/opt/mysql/5.7.21" || d == "/opt/mysql/8.0.11"
  VersionToName := fun v => if v = "8.0.11" then "8_0_11" else "5_7_21"
  VersionToList := fun v => if v = "8.0.11" then [8, 0, 11] else [5, 7, 21]
  GreaterOrEqualVersion := fun v _ => v == "8.0.11"
  DirName := fun _ => "/logs"
  CheckDirectory := fun s => some s
  FindFreePort := fun start installed k => lowestFreeBlock installed k.toNat 100 start
  CheckPort := fun _ _ installed port => portNotReserved installed port
  get_base_mysqlx_port := fun base _ _ => some (base + 10000)
  Mkdir := fun _ => true
  CreateSingleSandbox := fun s =>
    some [{ Priority := 0, Command := s.DirName ++ "/init" },
          { Priority := 1, Command := s.DirName ++ "/start" }]
  write_script := fun _ _ _ _ _ => true
  WriteSandboxDescription := fun _ _ => true
  UpdateCatalog := fun _ _ => true
  RunParallelTasksByPriority := fun _ => true

/-- A request for version 5.7.21 with base port 20000 and port 20001 already installed. -/
def sampleDef : SandboxDef where
  DirName := ""
  SBType := ""
  Multi := false
  NodeNum := 0
  Version := "5.7.21"
  Basedir := "/opt/mysql/5.7.21"
  SandboxDir := "/sb"
  LoadGrants := false
  InstalledPorts := [20001]
  Port := 5721
  MysqlXPort := 0
  BasePort := 20000
  Prompt := ""
  ServerId := 0
  ReplOptions := ""
  LogFileName := ""
  Logger := some "log"
  DisableMysqlX := false
  RunConcurrently := false

/-- The variables that lines 36-76 leave for the sample request: the allocator skips
the installed port 20001 and answers 20002. -/
def sampleAllocated : Allocated where
  sb_type := "multiple"
  Basedir := "/opt/mysql/5.7.21"
  sdef := { sampleDef with SandboxDir := "/sb/multi_msb_5_7_21" }
  rev := 21
  first_port := 20002
  base_port := 20001
  base_mysqlx_port := 30001

/-- The sample request for version 8.0.11, for which the mysqlx ports are recorded. -/
def sampleDef8 : SandboxDef :=
  { sampleDef with Version := "8.0.11", Basedir := "/opt/mysql/8.0.11" }

/-! ## Auxiliary definitions used in the statements -/

/-- The calls made by lines 36-76. -/
def Event.isCheck : Event → Bool
  | .NewLogger .. | .CheckDirectory .. | .FindFreePort .. | .CheckPort .. | .get_base_mysqlx_port .. => true
  | _ => false

/-- The installer calls of a run, in the order in which they were made. -/
def installerCalls (t : List Event) : List SandboxDef :=
  t.filterMap (fun e => match e with
    | .CreateSingleSandbox d => some d
    | _ => none)

/-- The ordinals `1, 2, ..., nodes`. -/
def ordinals (nodes : Int) : List Int :=
  (List.range nodes.toNat).map (fun (k : Nat) => 1 + (k : Int))

/-- The calls made by the node loop. -/
def Event.isNode : Event → Bool
  | .CreateSingleSandbox .. => true
  | .write_script _ _ _ (.node _) _ => true
  | _ => false

/-- The loop variables at the end of the iteration for node `i`, when the installer
returned `exec_list`. -/
def stepState (w : World) (sb_type node_label : String) (base_port base_mysqlx_port : Int)
    (st : LoopState) (i : Int) (exec_list : List ExecutionList) : LoopState :=
  let sdef := nodeDef w sb_type node_label base_port base_mysqlx_port st.sdef i
  { sdef := sdef
    dataNodes := st.dataNodes ++ [{
      Copyright := w.Copyright, AppVersion := w.VersionDef, DateTime := w.DateTime,
      Node := i, NodePort := sdef.Port, NodeLabel := node_label,
      SandboxDir := sdef.SandboxDir }]
    sb_desc := { st.sb_desc with
      Port := st.sb_desc.Port ++ nodePorts w base_port base_mysqlx_port st.sdef i }
    sb_item := { st.sb_item with
      Nodes := st.sb_item.Nodes ++ [sdef.DirName],
      Port := st.sb_item.Port ++ nodePorts w base_port base_mysqlx_port st.sdef i }
    exec_lists := st.exec_lists ++ exec_list }

/-- The node script call of line 170 for node `i`. -/
def nodeScript (w : World) (node_label : String) (sdef : SandboxDef) (i : Int) : Event :=
  .write_script ("n" ++ toString i) "node_template" sdef.SandboxDir
    (.node { Node := i, NodePort := sdef.Port, NodeLabel := node_label,
             SandboxDir := sdef.SandboxDir, Copyright := w.Copyright }) true

/-- Whether the node script call of line 170 returns for node `i`. -/
def nodeScriptReturns (w : World) (node_label : String) (sdef : SandboxDef) (i : Int) : Bool :=
  w.write_script ("n" ++ toString i) "node_template" sdef.SandboxDir
    (.node { Node := i, NodePort := sdef.Port, NodeLabel := node_label,
             SandboxDir := sdef.SandboxDir, Copyright := w.Copyright }) true

/-- The calls made by lines 172-191. -/
def Event.isFinal : Event → Bool
  | .WriteSandboxDescription .. | .UpdateCatalog .. | .RunParallelTasksByPriority .. => true
  | .write_script _ _ _ (.multi _) _ => true
  | _ => false

/-- The calls of lines 172-184, in program order. -/
def finishHead (st : LoopState) (data : MultiData) : List Event :=
  [ .WriteSandboxDescription st.sdef.SandboxDir st.sb_desc,
    .UpdateCatalog st.sdef.SandboxDir st.sb_item,
    .write_script "start_all" "start_multi_template" st.sdef.SandboxDir (.multi data) true,
    .write_script "restart_all" "restart_multi_template" st.sdef.SandboxDir (.multi data) true,
    .write_script "status_all" "status_multi_template" st.sdef.SandboxDir (.multi data) true,
    .write_script "test_sb_all" "test_sb_multi_template" st.sdef.SandboxDir (.multi data) true,
    .write_script "stop_all" "stop_multi_template" st.sdef.SandboxDir (.multi data) true,
    .write_script "clear_all" "clear_multi_template" st.sdef.SandboxDir (.multi data) true,
    .write_script "send_kill_all" "send_kill_multi_template" st.sdef.SandboxDir (.multi data) true,
    .write_script "use_all" "use_multi_template" st.sdef.SandboxDir (.multi data) true ]

/-- The description handed to the installer for node `i`: the assignments of lines
123-150 applied to the description left by lines 36-83. -/
def nodeOf (w : World) (a : Allocated) (i : Int) : SandboxDef :=
  nodeDef w a.sb_type w.Defaults.NodePrefix a.base_port a.base_mysqlx_port
    { a.sdef with ReplOptions := w.ReplicationOptions } i

/-- The node loop of lines 122-171 as started by line 122. -/
def loopOf (w : World) (a : Allocated) (nodes : Int) : Run LoopState :=
  nodeLoop w a.sb_type w.Defaults.NodePrefix a.base_port a.base_mysqlx_port nodes nodes.toNat 1
    (initialState w a.Basedir { a.sdef with ReplOptions := w.ReplicationOptions } nodes)

/-- The map `data` as it stands after the loop. -/
def dataOf (w : World) (a : Allocated) (st : LoopState) : MultiData :=
  { Copyright := w.Copyright, AppVersion := w.VersionDef, DateTime := w.DateTime,
    SandboxDir := a.sdef.SandboxDir, Nodes := st.dataNodes }

/-- The calls of the scheduler. -/
def Event.isScheduler : Event → Bool
  | .RunParallelTasksByPriority .. => true
  | _ => false

/-- The ports handed to `CheckPort` in a run, in the order of the calls. -/
def checkedPorts (t : List Event) : List Int :=
  t.filterMap (fun e => match e with
    | .CheckPort _ _ _ port => some port
    | _ => none)

/-- The catalog item of the sample run for version 5.7.21 with two nodes. -/
def sampleItem : SandboxItem where
  Origin := "/opt/mysql/5.7.21"
  SBType := ""
  Version := "5.7.21"
  Port := [20002, 20003]
  Nodes := ["node1", "node2"]
  Destination := "/sb/multi_msb_5_7_21"
  LogDirectory := ""

/-- The catalog item of the sample run for version 8.0.11 with two nodes. -/
def sampleItem8 : SandboxItem where
  Origin := "/opt/mysql/8.0.11"
  SBType := ""
  Version := "8.0.11"
  Port := [20002, 30002, 20003, 30003]
  Nodes := ["node1", "node2"]
  Destination := "/sb/multi_msb_8_0_11"
  LogDirectory := ""

/-- The execution lists that the installer of the sample world returns for two nodes. -/
def sampleSteps : List ExecutionList :=
  [ { Priority := 0, Command := "node1/init" }, { Priority := 1, Command := "node1/start" },
    { Priority := 0, Command := "node2/init" }, { Priority := 1, Command := "node2/start" } ]

/-- The sample request without an explicit base port: the base port is the one of
line 64, `5721 + 16000 + 21 * 100 = 23821`, and the first candidate port is installed. -/
def sampleDefDefault : SandboxDef :=
  { sampleDef with BasePort := 0, InstalledPorts := [23822] }

/-- The variables that lines 36-76 leave for `sampleDefDefault`: the allocator skips
the installed port 23822 and answers 23823. -/
def sampleAllocatedDefault : Allocated where
  sb_type := "multiple"
  Basedir := "/opt/mysql/5.7.21"
  sdef := { sampleDefDefault with SandboxDir := "/sb/multi_msb_5_7_21" }
  rev := 21
  first_port := 23823
  base_port := 23822
  base_mysqlx_port := 33822

/-- The sample request with the largest `int` as base port and no installed port. -/
def overflowDef : SandboxDef :=
  { sampleDef with BasePort := 9223372036854775807, InstalledPorts := [] }

/-- The variables that lines 36-76 leave for `overflowDef`: `base_port + 1` wraps to the
smallest `int`, which the allocator returns as it is free. -/
def overflowAllocated : Allocated where
  sb_type := "multiple"
  Basedir := "/opt/mysql/5.7.21"
  sdef := { overflowDef with SandboxDir := "/sb/multi_msb_5_7_21" }
  rev := 21
  first_port := -9223372036854775808
  base_port := 9223372036854775807
  base_mysqlx_port := 9223372036854785807

/-- The sample world with a version reader that yields a single number, as for a
version string that is not of the form `x.y.z`. -/
def shortVersionWorld : World :=
  { sampleWorld with VersionToList := fun _ => [-1] }

/-! ## Rules for the run of a sequence of calls -/

namespace Run

variable {α β : Type}

@[simp] theorem trace_pure (a : α) : (pure a : Run α).trace = [] := rfl
@[simp] theorem val_pure (a : α) : (pure a : Run α).val = .ok a := rfl
@[simp] theorem trace_exit (c : Int) (msg : String) : (exit c msg : Run α).trace = [] := rfl
@[simp] theorem val_exit (c : Int) (msg : String) : (exit c msg : Run α).val = .error (.exit c msg) := rfl
@[simp] theorem trace_panic : (panic : Run α).trace = [] := rfl
@[simp] theorem val_panic : (panic : Run α).val = .error .panic := rfl
@[simp] theorem trace_emit (e : Event) : (emit e).trace = [e] := rfl
@[simp] theorem val_emit (e : Event) : (emit e).val = .ok () := rfl

@[simp] theorem trace_call (e : Event) (r : Option α) : (call e r).trace = [e] := by
  cases r <;> rfl

@[simp] theorem val_call_ok (e : Event) (r : Option α) (a : α) :
    (call e r).val = .ok a ↔ r = some a := by
  cases r <;> simp [call]

@[simp] theorem val_call_error (e : Event) (r : Option α) (s : Stop) :
    (call e r).val = .error s ↔ r = none ∧ s = .callee := by
  cases r <;> simp [call, eq_comm]

@[simp] theorem trace_act (e : Event) (b : Bool) : (act e b).trace = [e] := by
  cases b <;> rfl

@[simp] theorem val_act_ok (e : Event) (b : Bool) (u : Unit) :
    (act e b).val = .ok u ↔ b = true := by
  cases b <;> simp [act]

@[simp] theorem val_act_error (e : Event) (b : Bool) (s : Stop) :
    (act e b).val = .error s ↔ b = false ∧ s = .callee := by
  cases b <;> simp [act, eq_comm]

@[simp] theorem trace_ite (c : Prop) [Decidable c] (m₁ m₂ : Run α) :
    (if c then m₁ else m₂).trace = if c then m₁.trace else m₂.trace := by
  split <;> rfl

@[simp] theorem val_ite (c : Prop) [Decidable c] (m₁ m₂ : Run α) :
    (if c then m₁ else m₂).val = if c then m₁.val else m₂.val := by
  split <;> rfl

theorem bind_eq (m : Run α) (f : α → Run β) : (m >>= f) = andThen m f := rfl

theorem trace_bind (m : Run α) (f : α → Run β) :
    (m >>= f).trace = m.trace ++ (match m.val with | .ok a => (f a).trace | .error _ => []) := by
  rw [bind_eq]; unfold andThen; split <;> simp [*]

theorem val_bind (m : Run α) (f : α → Run β) :
    (m >>= f).val = (match m.val with | .ok a => (f a).val | .error s => .error s) := by
  rw [bind_eq]; unfold andThen; split <;> simp [*]

theorem trace_bind_ok {m : Run α} {a : α} (f : α → Run β) (h : m.val = .ok a) :
    (m >>= f).trace = m.trace ++ (f a).trace := by
  rw [trace_bind, h]

theorem val_bind_of_ok {m : Run α} {a : α} (f : α → Run β) (h : m.val = .ok a) :
    (m >>= f).val = (f a).val := by
  rw [val_bind, h]

theorem trace_bind_error {m : Run α} {s : Stop} (f : α → Run β) (h : m.val = .error s) :
    (m >>= f).trace = m.trace := by
  rw [trace_bind, h]; simp

theorem val_bind_of_error {m : Run α} {s : Stop} (f : α → Run β) (h : m.val = .error s) :
    (m >>= f).val = .error s := by
  rw [val_bind, h]

theorem val_bind_ok (m : Run α) (f : α → Run β) (b : β) :
    (m >>= f).val = .ok b ↔ ∃ a, m.val = .ok a ∧ (f a).val = .ok b := by
  rw [val_bind]
  cases h : m.val with
  | error s => simp
  | ok a => simp

theorem val_bind_error (m : Run α) (f : α → Run β) (s : Stop) :
    (m >>= f).val = .error s ↔ m.val = .error s ∨ ∃ a, m.val = .ok a ∧ (f a).val = .error s := by
  rw [val_bind]
  cases h : m.val with
  | error s => simp
  | ok a => simp

theorem mem_trace_bind (m : Run α) (f : α → Run β) (e : Event) :
    e ∈ (m >>= f).trace ↔ e ∈ m.trace ∨ ∃ a, m.val = .ok a ∧ e ∈ (f a).trace := by
  rw [trace_bind]
  cases h : m.val with
  | error s => simp
  | ok a => simp

theorem forall_mem_trace_bind (m : Run α) (f : α → Run β) (P : Event → Prop) :
    (∀ e ∈ (m >>= f).trace, P e) ↔
      (∀ e ∈ m.trace, P e) ∧ ∀ a, m.val = .ok a → ∀ e ∈ (f a).trace, P e := by
  constructor
  · intro h
    refine ⟨fun e he => h e ((mem_trace_bind m f e).2 (Or.inl he)), fun a ha e he => ?_⟩
    exact h e ((mem_trace_bind m f e).2 (Or.inr ⟨a, ha, he⟩))
  · rintro ⟨h₁, h₂⟩ e he
    rcases (mem_trace_bind m f e).1 he with he | ⟨a, ha, he⟩
    · exact h₁ e he
    · exact h₂ a ha e he

end Run

/-! ## Wrap-around -/

theorem wrap64_range (x : Int) :
    -9223372036854775808 ≤ wrap64 x ∧ wrap64 x ≤ maxInt64 := by
  unfold wrap64 maxInt64; omega

theorem wrap64_eq_self (x : Int) (h₁ : -9223372036854775808 ≤ x) (h₂ : x ≤ maxInt64) :
    wrap64 x = x := by
  unfold wrap64; unfold maxInt64 at h₂; omega

theorem wrap64_add_left (a b : Int) : wrap64 (wrap64 a + b) = wrap64 (a + b) := by
  unfold wrap64; omega

/-- Subtracting one and adding `i`, both with wrap-around, is `p + i - 1` with
wrap-around. -/
theorem add64_sub64_one (p i : Int) : add64 (sub64 p 1) i = wrap64 (p + i - 1) := by
  unfold add64 sub64
  rw [wrap64_add_left]
  congr 1
  ring


/-! ## Lines 36-76 -/

theorem checkPorts_trace (w : World) (sdef : SandboxDef) (limit : Int) (n : Nat) (cp : Int) :
    ∀ e ∈ (checkPorts w sdef limit n cp).trace, ∃ port, port < limit ∧
      e = .CheckPort "CreateMultipleSandbox" sdef.SandboxDir sdef.InstalledPorts port := by
  induction n generalizing cp with
  | zero => intro e he; simp [checkPorts] at he
  | succ n ih =>
    unfold checkPorts
    split
    · rename_i hlt
      rw [Run.forall_mem_trace_bind]
      refine ⟨?_, ?_⟩
      · intro e he
        simp at he
        exact ⟨cp, hlt, he⟩
      · intro _ _ e he
        exact ih _ e he
    · intro e he; simp at he

theorem checkPorts_val (w : World) (sdef : SandboxDef) (limit : Int) (n : Nat) (cp : Int) (c : Int)
    (msg : String) : (checkPorts w sdef limit n cp).val ≠ .error (.exit c msg) := by
  induction n generalizing cp with
  | zero => simp [checkPorts]
  | succ n ih =>
    unfold checkPorts
    split
    · intro h
      rw [Run.val_bind_error] at h
      rcases h with h | ⟨_, _, h⟩
      · simp at h
      · exact ih _ h
    · simp

theorem openLogger_isCheck (w : World) (sb_type : String) (sdef : SandboxDef) :
    ∀ e ∈ (openLogger w sb_type sdef).trace, e.isCheck = true := by
  unfold openLogger
  split
  · simp
  · simp [Run.forall_mem_trace_bind, Event.isCheck]

theorem checkExisting_isCheck (w : World) (sdef : SandboxDef) :
    ∀ e ∈ (checkExisting w sdef).trace, e.isCheck = true := by
  unfold checkExisting
  intro e he
  split at he
  · simp at he; subst he; rfl
  · simp at he

theorem allocate_isCheck (w : World) (sdef : SandboxDef) (origin : String) (nodes : Int) :
    ∀ e ∈ (allocate w sdef origin nodes).trace, e.isCheck = true := by
  unfold allocate
  simp only [Run.forall_mem_trace_bind]
  refine ⟨openLogger_isCheck _ _ _, fun s1 _ => ⟨by simp, fun _ _ =>
    ⟨checkExisting_isCheck _ _, fun s3 _ => ?_⟩⟩⟩
  split
  · simp
  · simp only [Run.forall_mem_trace_bind]
    refine ⟨by simp [Event.isCheck], fun fp _ =>
      ⟨?_, fun _ _ => ⟨by simp [Event.isCheck], fun _ _ => by simp⟩⟩⟩
    intro e he
    obtain ⟨port, _, rfl⟩ := checkPorts_trace _ _ _ _ _ e he
    rfl

/-- What a returning run of lines 36-76 leaves in its variables. -/
theorem allocate_ok (w : World) (sdef : SandboxDef) (origin : String) (nodes : Int) (a : Allocated)
    (h : (allocate w sdef origin nodes).val = .ok a) :
    (w.VersionToList a.sdef.Version)[2]? = some a.rev ∧
    w.FindFreePort (add64 (requestedBasePort w a.sdef a.rev) 1) a.sdef.InstalledPorts nodes
      = some a.first_port ∧
    a.base_port = sub64 a.first_port 1 ∧
    w.get_base_mysqlx_port a.base_port a.sdef nodes = some a.base_mysqlx_port := by
  unfold allocate at h
  simp only [Run.val_bind_ok] at h
  obtain ⟨s1, _, _, _, s3, _, h⟩ := h
  split at h
  · simp at h
  · rename_i rev hrev
    simp only [Run.val_bind_ok] at h
    obtain ⟨fp, hfp, _, _, bmp, hbmp, h⟩ := h
    simp at h
    subst h
    simp at hfp hbmp
    exact ⟨hrev, hfp, rfl, hbmp⟩

theorem openLogger_exit (w : World) (sb_type : String) (sdef : SandboxDef) (c : Int) (msg : String) :
    (openLogger w sb_type sdef).val ≠ .error (.exit c msg) := by
  unfold openLogger
  split
  · simp
  · intro h
    rw [Run.val_bind_error] at h
    rcases h with h | ⟨_, _, h⟩
    · simp at h
    · simp at h

theorem checkExisting_exit (w : World) (sdef : SandboxDef) (c : Int) (msg : String) :
    (checkExisting w sdef).val ≠ .error (.exit c msg) := by
  unfold checkExisting
  intro h
  simp at h
  split at h <;> simp at h

/-- Every exit issued by lines 36-76 themselves has code 1. -/
theorem allocate_exit (w : World) (sdef : SandboxDef) (origin : String) (nodes : Int) (c : Int)
    (msg : String) (h : (allocate w sdef origin nodes).val = .error (.exit c msg)) : c = 1 := by
  unfold allocate at h
  simp only [Run.val_bind_error] at h
  rcases h with h | ⟨s1, _, h | ⟨_, _, h | ⟨s3, _, h⟩⟩⟩
  · exact absurd h (openLogger_exit _ _ _ _ _)
  · simp at h
    split at h
    · simp at h; exact h.1.symm
    · simp at h
  · exact absurd h (checkExisting_exit _ _ _ _)
  · split at h
    · simp at h
    · simp only [Run.val_bind_error] at h
      rcases h with h | ⟨_, _, h | ⟨_, _, h | ⟨_, _, h⟩⟩⟩
      · simp at h
      · exact absurd h (checkPorts_val _ _ _ _ _ _ _)
      · simp at h
      · simp at h


/-! ## The node loop, lines 122-171 -/

theorem foldl_append_singleton {α : Type} (l acc : List α) :
    l.foldl (fun acc x => acc ++ [x]) acc = acc ++ l := by
  induction l generalizing acc with
  | nil => simp
  | cons x l ih => simp [ih]

section Loop

variable (w : World) (sb_type node_label : String) (base_port base_mysqlx_port nodes : Int)

theorem nodeLoop_zero (i : Int) (st : LoopState) :
    nodeLoop w sb_type node_label base_port base_mysqlx_port nodes 0 i st = pure st := rfl

theorem nodeLoop_stop (n : Nat) (i : Int) (st : LoopState) (h : ¬ i ≤ nodes) :
    nodeLoop w sb_type node_label base_port base_mysqlx_port nodes n i st = pure st := by
  cases n with
  | zero => rfl
  | succ n => rw [nodeLoop]; simp [h]

/-- One iteration of the loop: the installer call, the node script, the rest. -/
theorem nodeLoop_succ (n : Nat) (i : Int) (st : LoopState) (h : i ≤ nodes) :
    nodeLoop w sb_type node_label base_port base_mysqlx_port nodes (n + 1) i st =
      (Run.call (.CreateSingleSandbox (nodeDef w sb_type node_label base_port base_mysqlx_port st.sdef i))
          (w.CreateSingleSandbox (nodeDef w sb_type node_label base_port base_mysqlx_port st.sdef i))
        >>= fun exec_list =>
        Run.act (nodeScript w node_label (nodeDef w sb_type node_label base_port base_mysqlx_port st.sdef i) i)
          (nodeScriptReturns w node_label
            (nodeDef w sb_type node_label base_port base_mysqlx_port st.sdef i) i)
        >>= fun _ =>
        nodeLoop w sb_type node_label base_port base_mysqlx_port nodes n (i + 1)
          (stepState w sb_type node_label base_port base_mysqlx_port st i exec_list)) := by
  rw [nodeLoop]
  simp only [h, if_true, foldl_append_singleton]
  rfl

/-- The assignments of an iteration overwrite those of the iteration before. -/
theorem nodeDef_nodeDef (s : SandboxDef) (i j : Int) :
    nodeDef w sb_type node_label base_port base_mysqlx_port
      (nodeDef w sb_type node_label base_port base_mysqlx_port s j) i =
    nodeDef w sb_type node_label base_port base_mysqlx_port s i := by
  unfold nodeDef
  by_cases h : w.GreaterOrEqualVersion s.Version [8, 0, 11] = true <;> simp [h]

theorem nodeDef_version (s : SandboxDef) (i : Int) :
    (nodeDef w sb_type node_label base_port base_mysqlx_port s i).Version = s.Version := by
  unfold nodeDef
  by_cases h : w.GreaterOrEqualVersion s.Version [8, 0, 11] = true <;> simp [h]

theorem nodePorts_nodeDef (s : SandboxDef) (i j : Int) :
    nodePorts w base_port base_mysqlx_port
      (nodeDef w sb_type node_label base_port base_mysqlx_port s j) i =
    nodePorts w base_port base_mysqlx_port s i := by
  unfold nodePorts nodeDef
  by_cases h : w.GreaterOrEqualVersion s.Version [8, 0, 11] = true <;> simp [h]

theorem nodeLoop_isNode (n : Nat) (i : Int) (st : LoopState) :
    ∀ e ∈ (nodeLoop w sb_type node_label base_port base_mysqlx_port nodes n i st).trace,
      e.isNode = true := by
  induction n generalizing i st with
  | zero => simp [nodeLoop_zero]
  | succ n ih =>
    by_cases h : i ≤ nodes
    · rw [nodeLoop_succ _ _ _ _ _ _ _ _ _ h]
      simp only [Run.forall_mem_trace_bind]
      refine ⟨by simp [Event.isNode], fun l _ => ⟨by simp [Event.isNode, nodeScript], fun _ _ => ih _ _⟩⟩
    · simp [nodeLoop_stop _ _ _ _ _ _ _ _ _ h]

theorem nodeLoop_exit (n : Nat) (i : Int) (st : LoopState) (c : Int) (msg : String) :
    (nodeLoop w sb_type node_label base_port base_mysqlx_port nodes n i st).val
      ≠ .error (.exit c msg) := by
  induction n generalizing i st with
  | zero => simp [nodeLoop_zero]
  | succ n ih =>
    by_cases h : i ≤ nodes
    · rw [nodeLoop_succ _ _ _ _ _ _ _ _ _ h]
      intro h
      simp only [Run.val_bind_error] at h
      rcases h with h | ⟨_, _, h | ⟨_, _, h⟩⟩
      · simp at h
      · simp at h
      · exact ih _ _ h
    · simp [nodeLoop_stop _ _ _ _ _ _ _ _ _ h]

/-- The installer is called for consecutive ordinals starting at `i`, each time on
`nodeDef` of the ordinal; a run that stops early has made an initial part of these calls. -/
theorem nodeLoop_calls_initial (n : Nat) (i : Int) (st : LoopState) :
    installerCalls (nodeLoop w sb_type node_label base_port base_mysqlx_port nodes n i st).trace
      <+: (List.range n).map (fun (k : Nat) =>
        nodeDef w sb_type node_label base_port base_mysqlx_port st.sdef (i + (k : Int))) := by
  induction n generalizing i st with
  | zero => simp [nodeLoop_zero, installerCalls]
  | succ n ih =>
    by_cases h : i ≤ nodes
    · rw [nodeLoop_succ _ _ _ _ _ _ _ _ _ h, List.range_succ_eq_map]
      simp only [List.map_cons, List.map_map, Nat.cast_zero, add_zero]
      cases hc : w.CreateSingleSandbox (nodeDef w sb_type node_label base_port base_mysqlx_port st.sdef i) with
      | none =>
        rw [Run.trace_bind_error (s := .callee) _ (by simp [hc])]
        simp [installerCalls, List.prefix_iff_eq_append]
      | some l =>
        rw [Run.trace_bind_ok (a := l) _ (by simp [hc])]
        cases hs : nodeScriptReturns w node_label
            (nodeDef w sb_type node_label base_port base_mysqlx_port st.sdef i) i with
        | false =>
          rw [Run.trace_bind_error (s := .callee) _ (by simp [hs])]
          simp [installerCalls, nodeScript, List.prefix_iff_eq_append]
        | true =>
          rw [Run.trace_bind_ok (a := ()) _ (by simp [hs])]
          have := ih (i + 1) (stepState w sb_type node_label base_port base_mysqlx_port st i l)
          simp only [stepState, nodeDef_nodeDef] at this
          simp only [installerCalls, nodeScript, Run.trace_call, Run.trace_act, List.singleton_append,
            List.filterMap_cons, List.cons_append, List.nil_append] at this ⊢
          have e : ((fun k : ℕ => nodeDef w sb_type node_label base_port base_mysqlx_port st.sdef (i + (k : Int))) ∘ Nat.succ)
              = fun k : ℕ => nodeDef w sb_type node_label base_port base_mysqlx_port st.sdef (i + 1 + (k : Int)) := by
            funext k; simp [add_comm, add_left_comm]
          rw [e]
          exact (List.prefix_cons_inj _).2 this
    · simp [nodeLoop_stop _ _ _ _ _ _ _ _ _ h, installerCalls]

end Loop

section LoopOk

variable (w : World) (sb_type node_label : String) (base_port base_mysqlx_port nodes : Int)

theorem nodeDef_sandboxDir (s : SandboxDef) (i : Int) :
    (nodeDef w sb_type node_label base_port base_mysqlx_port s i).SandboxDir = s.SandboxDir := by
  unfold nodeDef
  by_cases h : w.GreaterOrEqualVersion s.Version [8, 0, 11] = true <;> simp [h]

@[simp] theorem stepState_sdef (st : LoopState) (i : Int) (l : List ExecutionList) :
    (stepState w sb_type node_label base_port base_mysqlx_port st i l).sdef =
      nodeDef w sb_type node_label base_port base_mysqlx_port st.sdef i := rfl

@[simp] theorem stepState_exec_lists (st : LoopState) (i : Int) (l : List ExecutionList) :
    (stepState w sb_type node_label base_port base_mysqlx_port st i l).exec_lists =
      st.exec_lists ++ l := rfl

@[simp] theorem stepState_item_port (st : LoopState) (i : Int) (l : List ExecutionList) :
    (stepState w sb_type node_label base_port base_mysqlx_port st i l).sb_item.Port =
      st.sb_item.Port ++ nodePorts w base_port base_mysqlx_port st.sdef i := rfl

@[simp] theorem stepState_desc_port (st : LoopState) (i : Int) (l : List ExecutionList) :
    (stepState w sb_type node_label base_port base_mysqlx_port st i l).sb_desc.Port =
      st.sb_desc.Port ++ nodePorts w base_port base_mysqlx_port st.sdef i := rfl

/-- A loop that runs to its end has called the installer once for each of the `n`
ordinals from `i` on, has collected the returned execution lists in that order, and
has recorded the ports of each node in that order. -/
theorem nodeLoop_ok (n : Nat) (i : Int) (st st' : LoopState) (hn : i + (n : Int) ≤ nodes + 1)
    (h : (nodeLoop w sb_type node_label base_port base_mysqlx_port nodes n i st).val = .ok st') :
    installerCalls (nodeLoop w sb_type node_label base_port base_mysqlx_port nodes n i st).trace
      = (List.range n).map (fun (k : Nat) =>
          nodeDef w sb_type node_label base_port base_mysqlx_port st.sdef (i + (k : Int))) ∧
    (∃ results : List (List ExecutionList),
      (installerCalls (nodeLoop w sb_type node_label base_port base_mysqlx_port nodes n i st).trace).map
          w.CreateSingleSandbox = results.map some ∧
      st'.exec_lists = st.exec_lists ++ results.flatten) ∧
    st'.sb_item.Port = st.sb_item.Port ++ ((List.range n).map (fun (k : Nat) =>
      nodePorts w base_port base_mysqlx_port st.sdef (i + (k : Int)))).flatten ∧
    st'.sb_desc.Port = st.sb_desc.Port ++ ((List.range n).map (fun (k : Nat) =>
      nodePorts w base_port base_mysqlx_port st.sdef (i + (k : Int)))).flatten ∧
    st'.sdef.SandboxDir = st.sdef.SandboxDir := by
  induction n generalizing i st with
  | zero =>
    simp only [nodeLoop_zero, Run.val_pure, Except.ok.injEq] at h
    subst h
    refine ⟨by simp [nodeLoop_zero, installerCalls], ⟨[], by simp [nodeLoop_zero, installerCalls]⟩,
      by simp, by simp, rfl⟩
  | succ n ih =>
    have hi : i ≤ nodes := by push_cast at hn; omega
    rw [nodeLoop_succ _ _ _ _ _ _ _ _ _ hi] at h ⊢
    simp only [Run.val_bind_ok] at h
    obtain ⟨l, hl, u, hu, hrest⟩ := h
    rw [Run.trace_bind_ok _ hl, Run.trace_bind_ok _ hu]
    obtain ⟨ih1, ⟨results, ih2, ih3⟩, ih4, ih5, ih6⟩ :=
      ih (i + 1) (stepState w sb_type node_label base_port base_mysqlx_port st i l)
        (by push_cast at hn; omega) hrest
    simp only [stepState_sdef, stepState_exec_lists, stepState_item_port, stepState_desc_port,
      nodeDef_nodeDef, nodePorts_nodeDef, nodeDef_sandboxDir] at ih1 ih3 ih4 ih5 ih6
    have e1 : ((fun k : ℕ => nodeDef w sb_type node_label base_port base_mysqlx_port st.sdef
          (i + (k : Int))) ∘ Nat.succ)
        = fun k : ℕ => nodeDef w sb_type node_label base_port base_mysqlx_port st.sdef
          (i + 1 + (k : Int)) := by
      funext k; simp [add_comm, add_left_comm]
    have e2 : ((fun k : ℕ => nodePorts w base_port base_mysqlx_port st.sdef (i + (k : Int))) ∘ Nat.succ)
        = fun k : ℕ => nodePorts w base_port base_mysqlx_port st.sdef (i + 1 + (k : Int)) := by
      funext k; simp [add_comm, add_left_comm]
    have hcalls : installerCalls
        ((Run.call (Event.CreateSingleSandbox
              (nodeDef w sb_type node_label base_port base_mysqlx_port st.sdef i))
            (w.CreateSingleSandbox
              (nodeDef w sb_type node_label base_port base_mysqlx_port st.sdef i))).trace ++
          ((Run.act (nodeScript w node_label
              (nodeDef w sb_type node_label base_port base_mysqlx_port st.sdef i) i)
            (nodeScriptReturns w node_label
              (nodeDef w sb_type node_label base_port base_mysqlx_port st.sdef i) i)).trace ++
            (nodeLoop w sb_type node_label base_port base_mysqlx_port nodes n (i + 1)
              (stepState w sb_type node_label base_port base_mysqlx_port st i l)).trace))
        = nodeDef w sb_type node_label base_port base_mysqlx_port st.sdef i ::
          installerCalls (nodeLoop w sb_type node_label base_port base_mysqlx_port nodes n (i + 1)
              (stepState w sb_type node_label base_port base_mysqlx_port st i l)).trace := by
      simp [installerCalls, nodeScript]
    rw [hcalls]
    simp only [Run.val_call_ok] at hl
    refine ⟨?_, ⟨l :: results, ?_, ?_⟩, ?_, ?_, ih6⟩
    · rw [ih1, List.range_succ_eq_map]
      simp [e1]
    · simp [ih2, hl]
    · simp [ih3]
    · rw [ih4, List.range_succ_eq_map]
      simp [e2]
    · rw [ih5, List.range_succ_eq_map]
      simp [e2]

end LoopOk

/-! ## The final calls, lines 172-191 -/

theorem act_bind_initial {β : Type} (e : Event) (b : Bool) (f : Unit → Run β) (t : List Event)
    (h : (f ()).trace <+: t) : (Run.act e b >>= f).trace <+: e :: t := by
  cases b with
  | false =>
    rw [Run.trace_bind_error (s := .callee) _ (by simp)]
    simp [List.prefix_iff_eq_append]
  | true =>
    rw [Run.trace_bind_ok (a := ()) _ (by simp)]
    simpa using (List.prefix_cons_inj e).2 h

theorem act_bind_ok {β : Type} (e : Event) (b : Bool) (f : Unit → Run β) (d : β)
    (h : (Run.act e b >>= f).val = .ok d) :
    (Run.act e b >>= f).trace = e :: (f ()).trace ∧ (f ()).val = .ok d := by
  rw [Run.val_bind_ok] at h
  obtain ⟨u, hu, hd⟩ := h
  exact ⟨by rw [Run.trace_bind_ok _ hu]; simp, hd⟩

/-- The final calls are made in program order; a run that stops early has made an
initial part of them. -/
theorem finish_initial (w : World) (st : LoopState) (data : MultiData) :
    (finish w st data).trace <+:
      finishHead st data ++ [.RunParallelTasksByPriority st.exec_lists] := by
  unfold finish finishHead writeMulti
  repeat (first | exact List.nil_prefix | apply act_bind_initial)

theorem finish_ok (w : World) (st : LoopState) (data d : MultiData)
    (h : (finish w st data).val = .ok d) :
    (finish w st data).trace = finishHead st data ++ [.RunParallelTasksByPriority st.exec_lists] ∧
    d = data := by
  unfold finish writeMulti at h ⊢
  obtain ⟨t1, h⟩ := act_bind_ok _ _ _ _ h
  obtain ⟨t2, h⟩ := act_bind_ok _ _ _ _ h
  obtain ⟨t3, h⟩ := act_bind_ok _ _ _ _ h
  obtain ⟨t4, h⟩ := act_bind_ok _ _ _ _ h
  obtain ⟨t5, h⟩ := act_bind_ok _ _ _ _ h
  obtain ⟨t6, h⟩ := act_bind_ok _ _ _ _ h
  obtain ⟨t7, h⟩ := act_bind_ok _ _ _ _ h
  obtain ⟨t8, h⟩ := act_bind_ok _ _ _ _ h
  obtain ⟨t9, h⟩ := act_bind_ok _ _ _ _ h
  obtain ⟨t10, h⟩ := act_bind_ok _ _ _ _ h
  obtain ⟨t11, h⟩ := act_bind_ok _ _ _ _ h
  simp only [Run.val_pure, Except.ok.injEq] at h
  rw [t1, t2, t3, t4, t5, t6, t7, t8, t9, t10, t11]
  exact ⟨by simp [finishHead], h.symm⟩

theorem finish_exit (w : World) (st : LoopState) (data : MultiData) (c : Int) (msg : String) :
    (finish w st data).val ≠ .error (.exit c msg) := by
  unfold finish writeMulti
  intro h
  simp only [Run.val_bind_error, Run.val_act_error, Run.val_pure] at h
  simp at h


theorem finish_isFinal (w : World) (st : LoopState) (data : MultiData) :
    ∀ e ∈ (finish w st data).trace, e.isFinal = true := by
  intro e he
  have h := (finish_initial w st data).subset he
  simp [finishHead] at h
  rcases h with h | h | h | h | h | h | h | h | h | h | h <;> subst h <;> rfl

/-! ## The whole run -/

theorem split_left {α : Type} {A B pre post : List α} {x : α}
    (h : A ++ B = pre ++ x :: post) (hx : x ∉ A) :
    ∃ B₁, pre = A ++ B₁ ∧ B = B₁ ++ x :: post := by
  rcases List.append_eq_append_iff.1 h with ⟨a', h₁, h₂⟩ | ⟨c', h₁, h₂⟩
  · exact ⟨a', h₁, h₂⟩
  · cases c' with
    | nil => exact ⟨[], by simpa using h₁.symm, by simpa using h₂.symm⟩
    | cons y c' =>
      simp only [List.cons_append, List.cons.injEq] at h₂
      exact absurd (by rw [h₁, h₂.1]; simp) hx

theorem split_right {α : Type} {A B pre post : List α} {x : α}
    (h : A ++ B = pre ++ x :: post) (hx : x ∉ B) :
    ∃ A₂, A = pre ++ x :: A₂ ∧ post = A₂ ++ B := by
  rcases List.append_eq_append_iff.1 h with ⟨a', h₁, h₂⟩ | ⟨c', h₁, h₂⟩
  · exact absurd (by rw [h₂]; simp) hx
  · cases c' with
    | nil =>
      simp only [List.nil_append] at h₂
      exact absurd (by rw [← h₂]; simp) hx
    | cons y c' =>
      simp only [List.cons_append, List.cons.injEq] at h₂
      exact ⟨c', by rw [h₁, h₂.1], h₂.2⟩

theorem provision_small (w : World) (a : Allocated) (nodes : Int) (h : nodes < 2) :
    (provision w a nodes).trace = [] ∧
    (provision w a nodes).val = .error (.exit 1 onlyOneNode) := by
  unfold provision
  constructor
  · rw [Run.trace_bind_error (s := .exit 1 onlyOneNode) _ (by simp [h])]
    simp [h]
  · rw [Run.val_bind_of_error (s := .exit 1 onlyOneNode) _ (by simp [h])]

theorem provision_large (w : World) (a : Allocated) (nodes : Int) (h : 2 ≤ nodes) :
    provision w a nodes = (loopOf w a nodes >>= fun st => finish w st (dataOf w a st)) := by
  have h' : ¬ nodes < 2 := by omega
  unfold provision
  simp only [h', if_false]
  rfl

/-- The three ways in which the run can go up to line 83. -/
theorem run_shape (w : World) (sdef : SandboxDef) (origin : String) (nodes : Int) :
    (∃ s, (allocate w sdef origin nodes).val = .error s ∧
      (CreateMultipleSandbox w sdef origin nodes).trace = (allocate w sdef origin nodes).trace ∧
      (CreateMultipleSandbox w sdef origin nodes).val = .error s) ∨
    (∃ a, (allocate w sdef origin nodes).val = .ok a ∧
      (CreateMultipleSandbox w sdef origin nodes).trace
        = (allocate w sdef origin nodes).trace ++ [.Mkdir a.sdef.SandboxDir] ∧
      (CreateMultipleSandbox w sdef origin nodes).val = .error .callee ∧
      w.Mkdir a.sdef.SandboxDir = false) ∨
    (∃ a, (allocate w sdef origin nodes).val = .ok a ∧
      (CreateMultipleSandbox w sdef origin nodes).trace
        = (allocate w sdef origin nodes).trace ++
          (.Mkdir a.sdef.SandboxDir :: .AddToCleanupStack .Rmdir "Rmdir" a.sdef.SandboxDir ::
            (provision w a nodes).trace) ∧
      (CreateMultipleSandbox w sdef origin nodes).val = (provision w a nodes).val ∧
      w.Mkdir a.sdef.SandboxDir = true) := by
  unfold CreateMultipleSandbox
  cases ha : (allocate w sdef origin nodes).val with
  | error s =>
    left
    exact ⟨s, rfl, Run.trace_bind_error _ ha, Run.val_bind_of_error _ ha⟩
  | ok a =>
    right
    rw [Run.trace_bind_ok _ ha, Run.val_bind_of_ok _ ha]
    cases hm : w.Mkdir a.sdef.SandboxDir with
    | false =>
      left
      refine ⟨a, rfl, ?_, ?_, hm⟩
      · rw [Run.trace_bind_error (s := .callee) _ (by simp [hm])]; simp
      · rw [Run.val_bind_of_error (s := .callee) _ (by simp [hm])]
    | true =>
      right
      refine ⟨a, rfl, ?_, ?_, hm⟩
      · rw [Run.trace_bind_ok (a := ()) _ (by simp [hm]),
          Run.trace_bind_ok (a := ()) _ (by simp)]
        simp
      · rw [Run.val_bind_of_ok (a := ()) _ (by simp [hm]),
          Run.val_bind_of_ok (a := ()) _ (by simp)]

theorem nodeOf_sandboxDir (w : World) (a : Allocated) (i : Int) :
    (nodeOf w a i).SandboxDir = a.sdef.SandboxDir := by
  unfold nodeOf; rw [nodeDef_sandboxDir]

theorem loopOf_calls_initial (w : World) (a : Allocated) (nodes : Int) :
    installerCalls (loopOf w a nodes).trace <+: (ordinals nodes).map (nodeOf w a) := by
  have h := nodeLoop_calls_initial w a.sb_type w.Defaults.NodePrefix a.base_port a.base_mysqlx_port
    nodes nodes.toNat 1 (initialState w a.Basedir { a.sdef with ReplOptions := w.ReplicationOptions } nodes)
  simpa [ordinals, loopOf, nodeOf, initialState, List.map_map, Function.comp_def] using h

theorem installerCalls_append (s t : List Event) :
    installerCalls (s ++ t) = installerCalls s ++ installerCalls t := by
  simp [installerCalls]

theorem mem_installerCalls (t : List Event) (d : SandboxDef) :
    d ∈ installerCalls t ↔ .CreateSingleSandbox d ∈ t := by
  unfold installerCalls
  rw [List.mem_filterMap]
  constructor
  · rintro ⟨e, he, h⟩
    cases e <;> simp at h
    subst h; exact he
  · intro h
    exact ⟨_, h, rfl⟩

theorem installerCalls_eq_nil (t : List Event) (h : ∀ e ∈ t, ∀ d, e ≠ .CreateSingleSandbox d) :
    installerCalls t = [] := by
  rw [List.eq_nil_iff_forall_not_mem]
  intro d hd
  exact h _ ((mem_installerCalls t d).1 hd) d rfl

theorem installerCalls_allocate (w : World) (sdef : SandboxDef) (origin : String) (nodes : Int) :
    installerCalls (allocate w sdef origin nodes).trace = [] := by
  apply installerCalls_eq_nil
  intro e he d hd
  have := allocate_isCheck w sdef origin nodes e he
  subst hd
  simp [Event.isCheck] at this

theorem installerCalls_finish (w : World) (st : LoopState) (data : MultiData) :
    installerCalls (finish w st data).trace = [] := by
  apply installerCalls_eq_nil
  intro e he d hd
  have := finish_isFinal w st data e he
  subst hd
  simp [Event.isFinal] at this

/-- The installer calls of lines 83-191 are those of the node loop. -/
theorem installerCalls_provision (w : World) (a : Allocated) (nodes : Int) :
    installerCalls (provision w a nodes).trace =
      if nodes < 2 then [] else installerCalls (loopOf w a nodes).trace := by
  by_cases h : nodes < 2
  · simp [h, (provision_small w a nodes h).1, installerCalls]
  · simp only [h, if_false]
    rw [provision_large w a nodes (by omega), Run.trace_bind, installerCalls_append]
    cases hl : (loopOf w a nodes).val with
    | error s => simp [installerCalls]
    | ok st => simp [installerCalls_finish]

/-- The installer calls of a whole run, when lines 36-76 returned `a`. -/
theorem installerCalls_run (w : World) (sdef : SandboxDef) (origin : String) (nodes : Int)
    (a : Allocated) (ha : (allocate w sdef origin nodes).val = .ok a) :
    installerCalls (CreateMultipleSandbox w sdef origin nodes).trace = [] ∨
    (2 ≤ nodes ∧ installerCalls (CreateMultipleSandbox w sdef origin nodes).trace
      = installerCalls (loopOf w a nodes).trace) := by
  rcases run_shape w sdef origin nodes with ⟨s, hs, _, _⟩ | ⟨a', ha', ht, _⟩ | ⟨a', ha', ht, _⟩
  · rw [ha] at hs; cases hs
  · left
    rw [ht, installerCalls_append, installerCalls_allocate]
    simp [installerCalls]
  · rw [ha] at ha'
    cases ha'
    rw [ht, installerCalls_append, installerCalls_allocate]
    by_cases h : nodes < 2
    · left
      simp [(provision_small w a nodes h).1, installerCalls]
    · right
      refine ⟨by omega, ?_⟩
      have := installerCalls_provision w a nodes
      simp only [h, if_false] at this
      rw [← this]
      rfl


theorem ordinals_length (nodes : Int) : (ordinals nodes).length = nodes.toNat := by
  simp [ordinals]

theorem mem_ordinals (nodes i : Int) : i ∈ ordinals nodes ↔ 1 ≤ i ∧ i ≤ nodes := by
  unfold ordinals
  simp only [List.mem_map, List.mem_range]
  constructor
  · rintro ⟨k, hk, rfl⟩
    omega
  · rintro ⟨h1, h2⟩
    exact ⟨(i - 1).toNat, by omega, by omega⟩

theorem ordinals_nodup (nodes : Int) : (ordinals nodes).Nodup := by
  unfold ordinals
  refine List.Nodup.map ?_ (List.nodup_range _)
  intro a b h
  simpa using h

theorem loopOf_ok (w : World) (a : Allocated) (nodes : Int) (st : LoopState) (hN : 0 ≤ nodes)
    (h : (loopOf w a nodes).val = .ok st) :
    installerCalls (loopOf w a nodes).trace = (ordinals nodes).map (nodeOf w a) ∧
    (∃ results : List (List ExecutionList),
      (installerCalls (loopOf w a nodes).trace).map w.CreateSingleSandbox = results.map some ∧
      st.exec_lists = results.flatten) ∧
    st.sb_item.Port = ((ordinals nodes).map (fun i =>
      nodePorts w a.base_port a.base_mysqlx_port a.sdef i)).flatten ∧
    st.sb_desc.Port = st.sb_item.Port ∧
    st.sdef.SandboxDir = a.sdef.SandboxDir := by
  have hitem : (initialState w a.Basedir { a.sdef with ReplOptions := w.ReplicationOptions }
      nodes).sb_item.Port = [] := by
    unfold initialState
    simp only
    split <;> rfl
  obtain ⟨h1, ⟨results, h2, h3⟩, h4, h5, h6⟩ :=
    nodeLoop_ok w a.sb_type w.Defaults.NodePrefix a.base_port a.base_mysqlx_port nodes nodes.toNat 1
      (initialState w a.Basedir { a.sdef with ReplOptions := w.ReplicationOptions } nodes) st
      (by omega) h
  have e : ∀ i, nodePorts w a.base_port a.base_mysqlx_port
      (initialState w a.Basedir { a.sdef with ReplOptions := w.ReplicationOptions } nodes).sdef i
      = nodePorts w a.base_port a.base_mysqlx_port a.sdef i := fun i => rfl
  simp only [e, hitem, List.nil_append] at h4 h5
  have hdesc : (initialState w a.Basedir { a.sdef with ReplOptions := w.ReplicationOptions }
      nodes).sb_desc.Port = [] := rfl
  have hex : (initialState w a.Basedir { a.sdef with ReplOptions := w.ReplicationOptions }
      nodes).exec_lists = [] := rfl
  rw [hdesc, List.nil_append] at h5
  rw [hex, List.nil_append] at h3
  refine ⟨?_, ⟨results, h2, h3⟩, ?_, ?_, h6⟩
  · rw [show installerCalls (loopOf w a nodes).trace = _ from h1]
    simp [ordinals, nodeOf, initialState, List.map_map, Function.comp_def]
  · rw [h4]; simp [ordinals, List.map_map, Function.comp_def]
  · rw [h5, h4]

/-- A run that returns went through every stage: its calls are those of lines 36-76,
the directory creation, the cleanup registration, the node loop, the calls of lines
172-184 and, last, the call of the scheduler. -/
theorem run_ok (w : World) (sdef : SandboxDef) (origin : String) (nodes : Int) (data : MultiData)
    (h : (CreateMultipleSandbox w sdef origin nodes).val = .ok data) :
    ∃ a st, (allocate w sdef origin nodes).val = .ok a ∧ 2 ≤ nodes ∧
      (loopOf w a nodes).val = .ok st ∧ data = dataOf w a st ∧
      (CreateMultipleSandbox w sdef origin nodes).trace =
        (allocate w sdef origin nodes).trace ++
          (.Mkdir a.sdef.SandboxDir :: .AddToCleanupStack .Rmdir "Rmdir" a.sdef.SandboxDir ::
            ((loopOf w a nodes).trace ++ finishHead st data)) ++
          [.RunParallelTasksByPriority st.exec_lists] := by
  rcases run_shape w sdef origin nodes with ⟨s, _, _, hv⟩ | ⟨a, _, _, hv, _⟩ | ⟨a, ha, ht, hv, _⟩
  · rw [hv] at h; cases h
  · rw [hv] at h; cases h
  · rw [hv] at h
    by_cases hN : nodes < 2
    · rw [(provision_small w a nodes hN).2] at h; cases h
    · rw [provision_large w a nodes (by omega), Run.val_bind_ok] at h
      obtain ⟨st, hst, hf⟩ := h
      obtain ⟨hft, hd⟩ := finish_ok w st _ data hf
      refine ⟨a, st, ha, by omega, hst, hd, ?_⟩
      rw [ht, provision_large w a nodes (by omega), Run.trace_bind_ok _ hst, hft, hd]
      simp

/-- A call of lines 172-191 is made only after the node loop has run to its end. -/
theorem final_event (w : World) (sdef : SandboxDef) (origin : String) (nodes : Int) (e : Event)
    (he : e ∈ (CreateMultipleSandbox w sdef origin nodes).trace) (hf : e.isFinal = true) :
    ∃ a st, (allocate w sdef origin nodes).val = .ok a ∧ 2 ≤ nodes ∧
      (loopOf w a nodes).val = .ok st ∧
      e ∈ (finish w st (dataOf w a st)).trace ∧
      (CreateMultipleSandbox w sdef origin nodes).trace =
        (allocate w sdef origin nodes).trace ++
          (.Mkdir a.sdef.SandboxDir :: .AddToCleanupStack .Rmdir "Rmdir" a.sdef.SandboxDir ::
            (loopOf w a nodes).trace) ++ (finish w st (dataOf w a st)).trace := by
  have hcheck : e ∉ (allocate w sdef origin nodes).trace := by
    intro h
    have := allocate_isCheck w sdef origin nodes e h
    cases e <;> simp [Event.isCheck, Event.isFinal] at this hf
  rcases run_shape w sdef origin nodes with ⟨s, _, ht, _⟩ | ⟨a, _, ht, _⟩ | ⟨a, ha, ht, _⟩
  · rw [ht] at he; exact absurd he hcheck
  · rw [ht] at he
    simp only [List.mem_append, List.mem_singleton] at he
    rcases he with he | he
    · exact absurd he hcheck
    · subst he; simp [Event.isFinal] at hf
  · rw [ht] at he
    simp only [List.mem_append, List.mem_cons] at he
    rcases he with he | he | he | he
    · exact absurd he hcheck
    · subst he; simp [Event.isFinal] at hf
    · subst he; simp [Event.isFinal] at hf
    · by_cases hN : nodes < 2
      · rw [(provision_small w a nodes hN).1] at he; simp at he
      · rw [provision_large w a nodes (by omega), Run.mem_trace_bind] at he
        rcases he with he | ⟨st, hst, he⟩
        · have := nodeLoop_isNode _ _ _ _ _ _ _ _ _ e he
          cases e <;> simp [Event.isNode, Event.isFinal] at this hf
          rename_i d _
          cases d <;> simp [Event.isNode, Event.isFinal] at this hf
        · refine ⟨a, st, ha, by omega, hst, he, ?_⟩
          rw [ht, provision_large w a nodes (by omega), Run.trace_bind_ok _ hst]
          simp

/-! ## Installer calls of a whole run -/

theorem nodeOf_nodeNum (w : World) (a : Allocated) (i : Int) : (nodeOf w a i).NodeNum = i := by
  unfold nodeOf nodeDef
  by_cases h : w.GreaterOrEqualVersion a.sdef.Version [8, 0, 11] = true <;> simp [h]

theorem nodeOf_serverId (w : World) (a : Allocated) (i : Int) : (nodeOf w a i).ServerId = i * 100 := by
  unfold nodeOf nodeDef
  by_cases h : w.GreaterOrEqualVersion a.sdef.Version [8, 0, 11] = true <;> simp [h]

theorem nodeOf_dirName (w : World) (a : Allocated) (i : Int) :
    (nodeOf w a i).DirName = w.Defaults.NodePrefix ++ toString i := by
  unfold nodeOf nodeDef
  by_cases h : w.GreaterOrEqualVersion a.sdef.Version [8, 0, 11] = true <;> simp [h]

theorem nodeOf_port (w : World) (a : Allocated) (i : Int) :
    (nodeOf w a i).Port = add64 a.base_port i := by
  unfold nodeOf nodeDef
  by_cases h : w.GreaterOrEqualVersion a.sdef.Version [8, 0, 11] = true <;> simp [h]

theorem nodeOf_mysqlXPort (w : World) (a : Allocated) (i : Int)
    (h : w.GreaterOrEqualVersion a.sdef.Version [8, 0, 11] = false) :
    (nodeOf w a i).MysqlXPort = a.sdef.MysqlXPort := by
  unfold nodeOf nodeDef
  simp [h]

/-- The installer calls of any run are an initial part of the calls for the ordinals
`1, ..., nodes`, in that order. -/
theorem installerCalls_initial (w : World) (sdef : SandboxDef) (origin : String) (nodes : Int)
    (a : Allocated) (ha : (allocate w sdef origin nodes).val = .ok a) :
    installerCalls (CreateMultipleSandbox w sdef origin nodes).trace
      <+: (ordinals nodes).map (nodeOf w a) := by
  rcases installerCalls_run w sdef origin nodes a ha with h | ⟨_, h⟩
  · rw [h]; exact List.nil_prefix
  · rw [h]; exact loopOf_calls_initial w a nodes

/-- The installer calls of a run that returns are exactly the calls for the ordinals
`1, ..., nodes`, in that order. -/
theorem installerCalls_ok (w : World) (sdef : SandboxDef) (origin : String) (nodes : Int)
    (data : MultiData) (h : (CreateMultipleSandbox w sdef origin nodes).val = .ok data) :
    ∃ a st, (allocate w sdef origin nodes).val = .ok a ∧ (loopOf w a nodes).val = .ok st ∧
      installerCalls (CreateMultipleSandbox w sdef origin nodes).trace
        = installerCalls (loopOf w a nodes).trace ∧
      installerCalls (CreateMultipleSandbox w sdef origin nodes).trace
        = (ordinals nodes).map (nodeOf w a) := by
  obtain ⟨a, st, ha, hN, hst, _, _⟩ := run_ok w sdef origin nodes data h
  rcases installerCalls_run w sdef origin nodes a ha with h0 | ⟨_, h1⟩
  · have h2 := (loopOf_ok w a nodes st (by omega) hst).1
    have h3 := installerCalls_provision w a nodes
    refine ⟨a, st, ha, hst, ?_, ?_⟩
    · rcases run_shape w sdef origin nodes with ⟨s, hs, _, _⟩ | ⟨a', _, _, hv, _⟩ | ⟨a', ha', ht, _⟩
      · rw [ha] at hs; cases hs
      · rw [hv] at h; cases h
      · rw [ha] at ha'; cases ha'
        rw [ht, installerCalls_append, installerCalls_allocate]
        simp only [show ¬ nodes < 2 by omega, if_false] at h3
        rw [← h3]; rfl
    · rcases run_shape w sdef origin nodes with ⟨s, hs, _, _⟩ | ⟨a', _, _, hv, _⟩ | ⟨a', ha', ht, _⟩
      · rw [ha] at hs; cases hs
      · rw [hv] at h; cases h
      · rw [ha] at ha'; cases ha'
        rw [ht, installerCalls_append, installerCalls_allocate]
        simp only [show ¬ nodes < 2 by omega, if_false] at h3
        rw [← h2, ← h3]; rfl
  · exact ⟨a, st, ha, hst, h1, by rw [h1]; exact (loopOf_ok w a nodes st (by omega) hst).1⟩


/-- Every installer call of a run is the call for some ordinal between `1` and `nodes`. -/
theorem mem_installerCalls_run (w : World) (sdef : SandboxDef) (origin : String) (nodes : Int)
    (a : Allocated) (ha : (allocate w sdef origin nodes).val = .ok a) (d : SandboxDef)
    (hd : d ∈ installerCalls (CreateMultipleSandbox w sdef origin nodes).trace) :
    ∃ i, 1 ≤ i ∧ i ≤ nodes ∧ d = nodeOf w a i := by
  have h := (installerCalls_initial w sdef origin nodes a ha).subset hd
  rw [List.mem_map] at h
  obtain ⟨i, hi, rfl⟩ := h
  exact ⟨i, ((mem_ordinals nodes i).1 hi).1, ((mem_ordinals nodes i).1 hi).2, rfl⟩

/-- An installer call is made only after lines 36-76 returned. -/
theorem allocate_ok_of_installer (w : World) (sdef : SandboxDef) (origin : String) (nodes : Int)
    (d : SandboxDef) (hd : d ∈ installerCalls (CreateMultipleSandbox w sdef origin nodes).trace) :
    ∃ a, (allocate w sdef origin nodes).val = .ok a := by
  rcases run_shape w sdef origin nodes with ⟨s, _, ht, _⟩ | ⟨a, ha, _, _⟩ | ⟨a, ha, _, _⟩
  · rw [ht, installerCalls_allocate] at hd; cases hd
  · exact ⟨a, ha⟩
  · exact ⟨a, ha⟩


/-- The installer is not called when fewer than two nodes are requested. -/
theorem installerCalls_small (w : World) (sdef : SandboxDef) (origin : String) (nodes : Int)
    (h : nodes < 2) : installerCalls (CreateMultipleSandbox w sdef origin nodes).trace = [] := by
  rw [List.eq_nil_iff_forall_not_mem]
  intro d hd
  obtain ⟨a, ha⟩ := allocate_ok_of_installer w sdef origin nodes d hd
  rcases installerCalls_run w sdef origin nodes a ha with h0 | ⟨h2, _⟩
  · rw [h0] at hd; cases hd
  · omega


theorem act_bind_mem {β : Type} (e : Event) (b : Bool) (f : Unit → Run β) (x : Event)
    (h : x ∈ (Run.act e b >>= f).trace) : x = e ∨ (b = true ∧ x ∈ (f ()).trace) := by
  rw [Run.mem_trace_bind] at h
  rcases h with h | ⟨u, hu, h⟩
  · left; simpa using h
  · right; exact ⟨by simpa using hu, h⟩

/-- The scheduler is called only after the catalog writer returned. -/
theorem finish_catalog_returned (w : World) (st : LoopState) (data : MultiData)
    (l : List ExecutionList)
    (h : Event.RunParallelTasksByPriority l ∈ (finish w st data).trace) :
    w.UpdateCatalog st.sdef.SandboxDir st.sb_item = true := by
  unfold finish at h
  rcases act_bind_mem _ _ _ _ h with h | ⟨_, h⟩
  · cases h
  · rcases act_bind_mem _ _ _ _ h with h | ⟨hb, _⟩
    · cases h
    · exact hb

/-- Where the scheduler call stands among the final calls: last, after all the others. -/
theorem finish_split_scheduler (w : World) (st : LoopState) (data : MultiData)
    (l : List ExecutionList) (B post : List Event)
    (h : (finish w st data).trace = B ++ .RunParallelTasksByPriority l :: post) :
    B = finishHead st data ∧ l = st.exec_lists ∧ post = [] := by
  obtain ⟨r, hr⟩ := finish_initial w st data
  rw [h, List.append_assoc, List.cons_append] at hr
  have hnot : Event.RunParallelTasksByPriority l ∉ finishHead st data := by simp [finishHead]
  obtain ⟨B', hB, hB'⟩ := split_left hr.symm hnot
  cases B' with
  | nil =>
    simp only [List.nil_append, List.cons.injEq, Event.RunParallelTasksByPriority.injEq] at hB'
    refine ⟨by simpa using hB, hB'.1.symm, ?_⟩
    have := hB'.2.symm
    simp only [List.append_eq_nil] at this
    exact this.1
  | cons x B'' =>
    simp only [List.cons_append, List.cons.injEq] at hB'
    have := hB'.2
    simp at this

/-- Where the catalog call stands among the final calls: second, after the description. -/
theorem finish_split_catalog (w : World) (st : LoopState) (data : MultiData)
    (dir : String) (item : SandboxItem) (B post : List Event)
    (h : (finish w st data).trace = B ++ .UpdateCatalog dir item :: post) :
    B = [.WriteSandboxDescription st.sdef.SandboxDir st.sb_desc] := by
  obtain ⟨r, hr⟩ := finish_initial w st data
  rw [h, List.append_assoc, List.cons_append] at hr
  cases B with
  | nil => simp [finishHead] at hr
  | cons x B₂ =>
    cases B₂ with
    | nil =>
      simp only [finishHead, List.cons_append, List.nil_append, List.cons.injEq] at hr
      rw [hr.1]
    | cons y B₃ =>
      simp only [finishHead, List.cons_append, List.cons.injEq] at hr
      have hmem : Event.UpdateCatalog dir item ∈ B₃ ++ Event.UpdateCatalog dir item :: (post ++ r) := by
        simp
      rw [hr.2.2] at hmem
      simp at hmem


/-! ## The loops stop on their own condition; what the re-validation covers -/

/-- More iterations than `limit - check_port` change nothing: the re-validation loop
has stopped on its own condition.  The bounds say that `check_port` and `limit` are Go
`int` values, as they are at line 73. -/
theorem checkPorts_fuel (w : World) (sdef : SandboxDef) (limit : Int) (n m : Nat) (cp : Int)
    (hcp : -9223372036854775808 ≤ cp) (hlim : limit ≤ maxInt64)
    (h : limit ≤ cp + (n : Int)) :
    checkPorts w sdef limit (n + m) cp = checkPorts w sdef limit n cp := by
  induction n generalizing cp with
  | zero =>
    have hc : ¬ cp < limit := by simp at h; omega
    cases m with
    | zero => rfl
    | succ m => simp only [Nat.zero_add, checkPorts, hc, if_false]
  | succ n ih =>
    rw [show n + 1 + m = (n + m) + 1 by omega]
    unfold checkPorts
    by_cases hc : cp < limit
    · simp only [hc, if_true]
      have e : add64 cp 1 = cp + 1 := wrap64_eq_self _ (by omega) (by omega)
      rw [e, ih (cp + 1) (by omega) (by push_cast at h; omega)]
    · simp only [hc, if_false]

/-- More iterations than `nodes + 1 - i` change nothing: the node loop has stopped on
its own condition. -/
theorem nodeLoop_fuel (w : World) (sb_type node_label : String)
    (base_port base_mysqlx_port nodes : Int) (n m : Nat) (i : Int) (st : LoopState)
    (h : nodes + 1 ≤ i + (n : Int)) :
    nodeLoop w sb_type node_label base_port base_mysqlx_port nodes (n + m) i st =
      nodeLoop w sb_type node_label base_port base_mysqlx_port nodes n i st := by
  induction n generalizing i st with
  | zero =>
    have hc : ¬ i ≤ nodes := by simp at h; omega
    rw [nodeLoop_stop _ _ _ _ _ _ _ _ _ hc, nodeLoop_stop _ _ _ _ _ _ _ _ _ hc]
  | succ n ih =>
    rw [show n + 1 + m = (n + m) + 1 by omega]
    by_cases hc : i ≤ nodes
    · rw [nodeLoop_succ _ _ _ _ _ _ _ _ _ hc, nodeLoop_succ _ _ _ _ _ _ _ _ _ hc]
      congr 1
      funext l
      congr 1
      funext _
      exact ih (i + 1) _ (by push_cast at h; omega)
    · rw [nodeLoop_stop _ _ _ _ _ _ _ _ _ hc, nodeLoop_stop _ _ _ _ _ _ _ _ _ hc]

theorem openLogger_trace (w : World) (sb_type : String) (sdef : SandboxDef) :
    ∀ e ∈ (openLogger w sb_type sdef).trace, ∃ x y, e = .NewLogger x y := by
  unfold openLogger
  split
  · simp
  · simp [Run.forall_mem_trace_bind]

theorem checkExisting_trace (w : World) (sdef : SandboxDef) :
    ∀ e ∈ (checkExisting w sdef).trace, ∃ x, e = .CheckDirectory x := by
  unfold checkExisting
  intro e he
  split at he
  · simp at he; exact ⟨_, he⟩
  · simp at he

/-- The re-validation of lines 73-75 covers only ports below `base_port + nodes` (the
Go value of line 73). -/
theorem allocate_checked (w : World) (sdef : SandboxDef) (origin : String) (nodes : Int)
    (a : Allocated) (h : (allocate w sdef origin nodes).val = .ok a)
    (c dir : String) (ip : List Int) (port : Int)
    (he : Event.CheckPort c dir ip port ∈ (allocate w sdef origin nodes).trace) :
    port < add64 a.base_port nodes := by
  unfold allocate at h he
  simp only [Run.val_bind_ok] at h
  obtain ⟨s1, hs1, u, hu, s3, hs3, h⟩ := h
  rw [Run.mem_trace_bind] at he
  rcases he with he | ⟨s1', hs1', he⟩
  · obtain ⟨x, y, hxy⟩ := openLogger_trace _ _ _ _ he
    cases hxy
  rw [hs1] at hs1'; cases hs1'
  rw [Run.mem_trace_bind] at he
  rcases he with he | ⟨u', _, he⟩
  · simp at he
  rw [Run.mem_trace_bind] at he
  rcases he with he | ⟨s3', hs3', he⟩
  · obtain ⟨x, hx⟩ := checkExisting_trace _ _ _ he
    cases hx
  rw [hs3] at hs3'; cases hs3'
  dsimp only at h he
  cases hv : (w.VersionToList s3.Version)[2]? with
  | none => rw [hv] at h; simp at h
  | some rev =>
    rw [hv] at h he
    dsimp only at h he
    simp only [Run.val_bind_ok] at h
    obtain ⟨fp, hfp, _, _, bmp, _, h⟩ := h
    simp only [Run.val_pure, Except.ok.injEq] at h
    subst h
    rw [Run.mem_trace_bind] at he
    rcases he with he | ⟨fp', hfp', he⟩
    · simp at he
    rw [hfp] at hfp'; cases hfp'
    rw [Run.mem_trace_bind] at he
    rcases he with he | ⟨_, _, he⟩
    · obtain ⟨p, h2, h3⟩ := checkPorts_trace _ _ _ _ _ _ he
      cases h3
      exact h2
    · rw [Run.mem_trace_bind] at he
      rcases he with he | ⟨_, _, he⟩
      · simp at he
      · simp at he

/-- In every run, no port handed to `CheckPort` is as large as `base_port + nodes`, the
port that line 123 assigns to the last node. -/
theorem checkedPorts_below_last (w : World) (sdef : SandboxDef) (origin : String) (nodes : Int)
    (a : Allocated) (h : (allocate w sdef origin nodes).val = .ok a) :
    ∀ port ∈ checkedPorts (CreateMultipleSandbox w sdef origin nodes).trace,
      port < add64 a.base_port nodes := by
  intro port hp
  unfold checkedPorts at hp
  rw [List.mem_filterMap] at hp
  obtain ⟨e, he, hpe⟩ := hp
  cases e <;> simp at hpe
  rename_i c dir ip p
  subst hpe
  have hin : Event.CheckPort c dir ip p ∈ (allocate w sdef origin nodes).trace := by
    rcases run_shape w sdef origin nodes with ⟨s, hs, _, _⟩ | ⟨a', _, ht, _⟩ | ⟨a', _, ht, _⟩
    · rw [h] at hs; cases hs
    · rw [ht] at he
      simpa using he
    · rw [ht] at he
      simp only [List.mem_append, List.mem_cons, reduceCtorEq, false_or] at he
      rcases he with he | he
      · exact he
      · exfalso
        by_cases hN : nodes < 2
        · rw [(provision_small w a' nodes hN).1] at he; cases he
        · rw [provision_large w a' nodes (by omega), Run.mem_trace_bind] at he
          rcases he with he | ⟨st, _, he⟩
          · have := nodeLoop_isNode _ _ _ _ _ _ _ _ _ _ he
            simp [Event.isNode] at this
          · have := finish_isFinal _ _ _ _ he
            simp [Event.isFinal] at this
  exact allocate_checked w sdef origin nodes a h c dir ip p hin

/-! ## The reference allocator meets the assumption made on `common.FindFreePort` -/

theorem blockFree_spec (installed : List Int) (k : Nat) (p : Int)
    (h : blockFree installed p k = true) :
    ∀ j : Int, 0 ≤ j → j < k → p + j ∉ installed := by
  induction k generalizing p with
  | zero => intro j h0 h1; simp at h1; omega
  | succ k ih =>
    simp [blockFree] at h
    intro j h0 h1
    by_cases hj : j = 0
    · subst hj; simpa using h.1
    · have := ih (p + 1) h.2 (j - 1) (by omega) (by push_cast at h1; omega)
      have e : p + 1 + (j - 1) = p + j := by ring
      rw [e] at this
      exact this

/-- The answer of the reference allocator is at or after the starting point, and none
of the `k` ports from the answer on is installed. -/
theorem lowestFreeBlock_spec (installed : List Int) (k horizon : Nat) (start p : Int)
    (h : lowestFreeBlock installed k horizon start = some p) :
    start ≤ p ∧ ∀ j : Int, 0 ≤ j → j < k → p + j ∉ installed := by
  induction horizon generalizing start with
  | zero => simp [lowestFreeBlock] at h
  | succ n ih =>
    unfold lowestFreeBlock at h
    split at h
    · rename_i hb
      cases h
      exact ⟨le_refl _, blockFree_spec installed k _ hb⟩
    · obtain ⟨h1, h2⟩ := ih (start + 1) h
      exact ⟨by omega, h2⟩

/-- The answer of the reference allocator is the lowest one: every candidate between
the starting point and the answer has an installed port in its block. -/
theorem lowestFreeBlock_lowest (installed : List Int) (k horizon : Nat) (start p : Int)
    (h : lowestFreeBlock installed k horizon start = some p) :
    ∀ q, start ≤ q → q < p → blockFree installed q k = false := by
  induction horizon generalizing start with
  | zero => simp [lowestFreeBlock] at h
  | succ n ih =>
    unfold lowestFreeBlock at h
    split at h
    · cases h
      intro q h1 h2; omega
    · rename_i hb
      intro q h1 h2
      by_cases hq : q = start
      · subst hq; simpa using hb
      · exact ih (start + 1) h q (by omega) h2

/-- C1, counterexample.  With the largest `int` as base port, `base_port + 1` wraps to
the smallest `int`; the allocator's answer for that starting point meets the assumption
of the claim (it is at least the starting point and its block is free), and the two
nodes get the ports -2^63 and -2^63 + 1, which are not greater than the requested base
port 2^63 - 1. -/
theorem ports_wrap_below_requested_base :
    (allocate sampleWorld overflowDef "5.7.21" 2).val = .ok overflowAllocated ∧
    requestedBasePort sampleWorld overflowAllocated.sdef overflowAllocated.rev = maxInt64 ∧
    add64 maxInt64 1 = -9223372036854775808 ∧
    sampleWorld.FindFreePort (add64 maxInt64 1) overflowAllocated.sdef.InstalledPorts 2
      = some (-9223372036854775808) ∧
    (∀ j : Int, 0 ≤ j → j < 2 →
      -9223372036854775808 + j ∉ overflowAllocated.sdef.InstalledPorts) ∧
    (installerCalls (CreateMultipleSandbox sampleWorld overflowDef "5.7.21" 2).trace).map
      (fun d => d.Port) = [-9223372036854775808, -9223372036854775807] ∧
    ¬ (∀ (w : World) (sdef : SandboxDef) (origin : String) (nodes : Int) (a : Allocated),
        2 ≤ nodes → (allocate w sdef origin nodes).val = .ok a →
        (∀ p, w.FindFreePort (add64 (requestedBasePort w a.sdef a.rev) 1)
            a.sdef.InstalledPorts nodes = some p →
          add64 (requestedBasePort w a.sdef a.rev) 1 ≤ p ∧
          ∀ j, 0 ≤ j → j < nodes → p + j ∉ a.sdef.InstalledPorts) →
        ∀ d ∈ installerCalls (CreateMultipleSandbox w sdef origin nodes).trace,
          requestedBasePort w a.sdef a.rev < d.Port) := by
  have hports : (installerCalls (CreateMultipleSandbox sampleWorld overflowDef "5.7.21" 2).trace).map
      (fun d => d.Port) = [-9223372036854775808, -9223372036854775807] := by decide
  refine ⟨rfl, by decide, by decide, by decide, ?_, hports, ?_⟩
  · intro j _ _ h
    exact absurd h (List.not_mem_nil _)
  · intro hall
    have h := hall sampleWorld overflowDef "5.7.21" 2 overflowAllocated (by decide) rfl
      (by
        intro p hp
        have hp' : (some (-9223372036854775808) : Option Int) = some p := hp
        cases hp'
        refine ⟨by decide, ?_⟩
        intro j _ _ hj
        exact absurd hj (List.not_mem_nil _))
    have hd : nodeOf sampleWorld overflowAllocated 1 ∈
        installerCalls (CreateMultipleSandbox sampleWorld overflowDef "5.7.21" 2).trace := by
      decide
    have := h _ hd
    revert this
    decide

/-- C1, with the bounds that keep the port arithmetic from wrapping.  Let lines 36-76
return with the description `a.sdef`, let `rev` be `vList[2]`, and let `base` be the
requested base port: `sdef.BasePort` when it is positive, otherwise
`sdef.Port + MultipleBasePort + rev * 100` (Go arithmetic).  Assume `nodes ≥ 2`, that
`base` is smaller than the largest `int`, that the answer `p` of `common.FindFreePort`
for the starting point `base + 1`, the installed ports and `nodes` is at least the
starting point with none of `p, ..., p + nodes - 1` installed, and that this block ends
at or below the largest `int`.  Then the allocator was asked exactly that, the ports
handed to the installer are pairwise distinct, the port of node `i` is
`first_port + i - 1`, strictly greater than `base` and not in `InstalledPorts`, and a
run that returns has assigned these ports to the nodes `1, ..., nodes` in order. -/
theorem primary_ports_distinct_and_free (w : World) (sdef : SandboxDef) (origin : String)
    (nodes : Int) (a : Allocated) (rev base : Int) (hN : 2 ≤ nodes)
    (ha : (allocate w sdef origin nodes).val = .ok a)
    (hrev : (w.VersionToList a.sdef.Version)[2]? = some rev)
    (hb : base = if a.sdef.BasePort > 0 then a.sdef.BasePort
      else add64 (add64 a.sdef.Port w.Defaults.MultipleBasePort) (mul64 rev 100))
    (hmax : base < maxInt64)
    (hfree : ∀ p, w.FindFreePort (base + 1) a.sdef.InstalledPorts nodes = some p →
      base + 1 ≤ p ∧ ∀ j, 0 ≤ j → j < nodes → p + j ∉ a.sdef.InstalledPorts)
    (hfit : a.first_port + nodes - 1 ≤ maxInt64) :
    w.FindFreePort (base + 1) a.sdef.InstalledPorts nodes = some a.first_port ∧
    ((installerCalls (CreateMultipleSandbox w sdef origin nodes).trace).map
      (fun d => d.Port)).Nodup ∧
    (∀ d ∈ installerCalls (CreateMultipleSandbox w sdef origin nodes).trace,
      1 ≤ d.NodeNum ∧ d.NodeNum ≤ nodes ∧
      d.Port = a.first_port + d.NodeNum - 1 ∧
      base < d.Port ∧
      d.Port ∉ a.sdef.InstalledPorts ∧ d.InstalledPorts = a.sdef.InstalledPorts) ∧
    (∀ data, (CreateMultipleSandbox w sdef origin nodes).val = .ok data →
      (installerCalls (CreateMultipleSandbox w sdef origin nodes).trace).map (fun d => d.Port)
        = (ordinals nodes).map (fun i => a.first_port + i - 1)) := by
  have _ := hN
  obtain ⟨hrev', hfp, hbase, _⟩ := allocate_ok w sdef origin nodes a ha
  have hr : a.rev = rev := by
    rw [hrev] at hrev'
    exact (Option.some.inj hrev').symm
  have hreq : requestedBasePort w a.sdef a.rev = base := by
    rw [hb, hr]; rfl
  have hlow : -9223372036854775808 ≤ base := by
    rw [hb]
    split
    · omega
    · exact (wrap64_range _).1
  have hstart : add64 (requestedBasePort w a.sdef a.rev) 1 = base + 1 := by
    rw [hreq]
    exact wrap64_eq_self _ (by omega) (by unfold maxInt64 at hmax ⊢; omega)
  rw [hstart] at hfp
  obtain ⟨hle, hnot⟩ := hfree _ hfp
  have hport : ∀ i, 1 ≤ i → i ≤ nodes → (nodeOf w a i).Port = a.first_port + i - 1 := by
    intro i h1 h2
    rw [nodeOf_port, hbase, add64_sub64_one]
    exact wrap64_eq_self _ (by omega) (by omega)
  have hmap : ((ordinals nodes).map (nodeOf w a)).map (fun d => d.Port)
      = (ordinals nodes).map (fun i => a.first_port + i - 1) := by
    rw [List.map_map]
    apply List.map_congr_left
    intro i hi
    have := (mem_ordinals nodes i).1 hi
    simp only [Function.comp]
    exact hport i this.1 this.2
  refine ⟨hfp, ?_, ?_, ?_⟩
  · have hpre := installerCalls_initial w sdef origin nodes a ha
    have hsub : ((installerCalls (CreateMultipleSandbox w sdef origin nodes).trace).map
        (fun d => d.Port)) <+: ((ordinals nodes).map (nodeOf w a)).map (fun d => d.Port) := by
      obtain ⟨t, ht⟩ := hpre
      exact ⟨t.map (fun d => d.Port), by rw [← ht, List.map_append]⟩
    refine List.Nodup.sublist hsub.sublist ?_
    rw [hmap]
    refine List.Nodup.map ?_ (ordinals_nodup nodes)
    intro x y hxy
    have : a.first_port + x - 1 = a.first_port + y - 1 := hxy
    omega
  · intro d hd
    obtain ⟨i, h1, h2, rfl⟩ := mem_installerCalls_run w sdef origin nodes a ha d hd
    rw [hport i h1 h2, nodeOf_nodeNum]
    refine ⟨h1, h2, rfl, by omega, ?_, ?_⟩
    · have := hnot (i - 1) (by omega) (by omega)
      have e : a.first_port + i - 1 = a.first_port + (i - 1) := by ring
      rw [e]; exact this
    · unfold nodeOf nodeDef
      by_cases h : w.GreaterOrEqualVersion a.sdef.Version [8, 0, 11] = true <;> simp [h]
  · intro data hdata
    obtain ⟨a', st, ha', _, _, hc⟩ := installerCalls_ok w sdef origin nodes data hdata
    rw [ha] at ha'; cases ha'
    rw [hc, hmap]

/-- The sample run with three nodes and no explicit base port: the requested base is
`5721 + 16000 + 21 * 100 = 23821`, the allocator skips the installed port 23822 and
answers 23823, and the nodes get 23823, 23824, 23825. -/
theorem primary_ports_distinct_and_free_witness :
    (2 : Int) ≤ 3 ∧
    (allocate sampleWorld sampleDefDefault "5.7.21" 3).val = .ok sampleAllocatedDefault ∧
    (sampleWorld.VersionToList sampleAllocatedDefault.sdef.Version)[2]? = some 21 ∧
    (23821 : Int) = (if sampleAllocatedDefault.sdef.BasePort > 0
      then sampleAllocatedDefault.sdef.BasePort
      else add64 (add64 sampleAllocatedDefault.sdef.Port sampleWorld.Defaults.MultipleBasePort)
        (mul64 21 100)) ∧
    (23821 : Int) < maxInt64 ∧
    sampleAllocatedDefault.first_port + 3 - 1 ≤ maxInt64 ∧
    sampleWorld.FindFreePort (23821 + 1) sampleAllocatedDefault.sdef.InstalledPorts 3
      = some sampleAllocatedDefault.first_port ∧
    ((installerCalls (CreateMultipleSandbox sampleWorld sampleDefDefault "5.7.21" 3).trace).map
      (fun d => d.Port)).Nodup ∧
    (installerCalls (CreateMultipleSandbox sampleWorld sampleDefDefault "5.7.21" 3).trace).map
      (fun d => d.Port) = [23823, 23824, 23825] := by
  have hfree : ∀ p, sampleWorld.FindFreePort (23821 + 1)
      sampleAllocatedDefault.sdef.InstalledPorts 3 = some p →
      (23821 : Int) + 1 ≤ p ∧
      ∀ j, 0 ≤ j → j < 3 → p + j ∉ sampleAllocatedDefault.sdef.InstalledPorts := by
    intro p hp
    have hp' : (some 23823 : Option Int) = some p := hp
    cases hp'
    refine ⟨by decide, ?_⟩
    intro j h0 h3
    interval_cases j <;> decide
  have h := primary_ports_distinct_and_free sampleWorld sampleDefDefault "5.7.21" 3
    sampleAllocatedDefault 21 23821 (by decide) rfl (by decide) (by decide) (by decide) hfree
    (by decide)
  exact ⟨by decide, rfl, by decide, by decide, by decide, by decide, h.1, h.2.1, by decide⟩


/-- C2. In every run, when the allocator answered `first_port` for the starting point
base + 1 and the block size `nodes`, the installer call for node `i` carries the port
`first_port + i - 1` (the Go value: lines 72 and 123 compute `first_port - 1 + i`), and
a run that returns has made these calls for `i = 1, ..., nodes` in ordinal order.  With the allocator that returns the lowest free block, the request
with 3 nodes, base port 20000 and installed port 20001 gets the answer 20002 and the
node ports 20002, 20003, 20004 in ordinal order. -/
theorem exact_port_block (w : World) (sdef : SandboxDef) (origin : String) (nodes : Int)
    (a : Allocated) (ha : (allocate w sdef origin nodes).val = .ok a) :
    w.FindFreePort (add64 (requestedBasePort w a.sdef a.rev) 1) a.sdef.InstalledPorts nodes
      = some a.first_port ∧
    (∀ d ∈ installerCalls (CreateMultipleSandbox w sdef origin nodes).trace,
      1 ≤ d.NodeNum ∧ d.NodeNum ≤ nodes ∧ d.Port = wrap64 (a.first_port + d.NodeNum - 1)) ∧
    (∀ data, (CreateMultipleSandbox w sdef origin nodes).val = .ok data →
      (installerCalls (CreateMultipleSandbox w sdef origin nodes).trace).map (fun d => d.Port)
        = (ordinals nodes).map (fun i => wrap64 (a.first_port + i - 1))) ∧
    (lowestFreeBlock [20001] 3 100 (20000 + 1) = some 20002 ∧
      requestedBasePort sampleWorld sampleDef 21 = 20000 ∧
      sampleDef.InstalledPorts = [20001] ∧
      (∃ data, (CreateMultipleSandbox sampleWorld sampleDef "5.7.21" 3).val = .ok data) ∧
      (installerCalls (CreateMultipleSandbox sampleWorld sampleDef "5.7.21" 3).trace).map
        (fun d => d.Port) = [20002, 20003, 20004]) := by
  obtain ⟨_, hfp, hbase, _⟩ := allocate_ok w sdef origin nodes a ha
  refine ⟨hfp, ?_, ?_, ?_⟩
  · intro d hd
    obtain ⟨i, h1, h2, rfl⟩ := mem_installerCalls_run w sdef origin nodes a ha d hd
    rw [nodeOf_port, nodeOf_nodeNum, hbase, add64_sub64_one]
    exact ⟨h1, h2, rfl⟩
  · intro data hdata
    obtain ⟨a', st, ha', _, _, hc⟩ := installerCalls_ok w sdef origin nodes data hdata
    rw [ha] at ha'; cases ha'
    rw [hc, List.map_map]
    apply List.map_congr_left
    intro i _
    simp only [Function.comp, nodeOf_port, hbase, add64_sub64_one]
  · refine ⟨by decide, by decide, rfl, ⟨_, rfl⟩, by decide⟩

/-- The sample request with three nodes reaches the allocator, which answers 20002. -/
theorem exact_port_block_witness :
    (allocate sampleWorld sampleDef "5.7.21" 3).val = .ok sampleAllocated ∧
    (installerCalls (CreateMultipleSandbox sampleWorld sampleDef "5.7.21" 3).trace).map
        (fun d => d.Port) = (ordinals 3).map (fun i => wrap64 (sampleAllocated.first_port + i - 1)) :=
  ⟨rfl, (exact_port_block sampleWorld sampleDef "5.7.21" 3 sampleAllocated rfl).2.2.1 _ rfl⟩

/-- C3, on the code.  In the sample run with two nodes the allocator answers 20002, the
nodes get the ports 20002 and 20003, and `CheckPort` is called for 20002 only: the port
of the last node is handed to the installer without having been re-validated. -/
theorem last_port_not_revalidated :
    (CreateMultipleSandbox sampleWorld sampleDef "5.7.21" 2).trace.take 4
      = [ .FindFreePort 20001 [20001] 2,
          .CheckPort "CreateMultipleSandbox" "/sb/multi_msb_5_7_21" [20001] 20002,
          .get_base_mysqlx_port 20001 sampleAllocated.sdef 2,
          .Mkdir "/sb/multi_msb_5_7_21" ] ∧
    checkedPorts (CreateMultipleSandbox sampleWorld sampleDef "5.7.21" 2).trace = [20002] ∧
    (installerCalls (CreateMultipleSandbox sampleWorld sampleDef "5.7.21" 2).trace).map
      (fun d => d.Port) = [20002, 20003] ∧
    (20003 : Int) ∉ checkedPorts (CreateMultipleSandbox sampleWorld sampleDef "5.7.21" 2).trace := by
  refine ⟨by decide, by decide, by decide, by decide⟩

/-- C4, on the code.  The sample request with a single node is rejected with exit code 1
only after the directory of the group has been created and its removal has been pushed
on the cleanup stack. -/
theorem single_node_rejected_after_mkdir :
    (CreateMultipleSandbox sampleWorld sampleDef "5.7.21" 1).val
      = .error (.exit 1 onlyOneNode) ∧
    (CreateMultipleSandbox sampleWorld sampleDef "5.7.21" 1).trace
      = [ .FindFreePort 20001 [20001] 1,
          .get_base_mysqlx_port 20001 sampleAllocated.sdef 1,
          .Mkdir "/sb/multi_msb_5_7_21",
          .AddToCleanupStack .Rmdir "Rmdir" "/sb/multi_msb_5_7_21" ] := by
  exact ⟨rfl, by decide⟩

/-- C5, counterexample.  With a version reader that yields fewer than three numbers, the
request with a single node ends at line 63 in the index panic of `vList[2]`, before any
collaborator is called: the run does not end with an exit of code 1. -/
theorem single_node_run_panics :
    (CreateMultipleSandbox shortVersionWorld sampleDef "5.7.21" 1).val = .error .panic ∧
    (CreateMultipleSandbox shortVersionWorld sampleDef "5.7.21" 1).trace = [] ∧
    ¬ (∀ (w : World) (sdef : SandboxDef) (origin : String) (nodes : Int), nodes < 2 →
        ∃ msg, (CreateMultipleSandbox w sdef origin nodes).val = .error (.exit 1 msg)) := by
  refine ⟨rfl, rfl, ?_⟩
  intro hall
  obtain ⟨msg, h⟩ := hall shortVersionWorld sampleDef "5.7.21" 1 (by decide)
  have h' : (Except.error Stop.panic : Except Stop MultiData) = .error (.exit 1 msg) := h
  cases h'

/-- C5, as the code has it.  When fewer than two nodes are requested the run never
returns: it ends with an exit of code 1, or in the index panic of line 63, or inside a
collaborator that does not return; every exit that the function issues itself has
code 1; when lines 36-77 return, the run ends with the exit of line 86, code 1; and the
run calls neither the single-node installer nor the scheduler nor the catalog writer.
Conversely a run that calls the installer has `nodes ≥ 2`. -/
theorem minimum_node_count (w : World) (sdef : SandboxDef) (origin : String) (nodes : Int) :
    (nodes < 2 →
      ((∃ msg, (CreateMultipleSandbox w sdef origin nodes).val = .error (.exit 1 msg)) ∨
        (CreateMultipleSandbox w sdef origin nodes).val = .error .panic ∨
        (CreateMultipleSandbox w sdef origin nodes).val = .error .callee) ∧
      (∀ data, (CreateMultipleSandbox w sdef origin nodes).val ≠ .ok data) ∧
      (∀ c msg, (CreateMultipleSandbox w sdef origin nodes).val = .error (.exit c msg) → c = 1) ∧
      (∀ a, (allocate w sdef origin nodes).val = .ok a → w.Mkdir a.sdef.SandboxDir = true →
        (CreateMultipleSandbox w sdef origin nodes).val = .error (.exit 1 onlyOneNode)) ∧
      (∀ d, Event.CreateSingleSandbox d ∉ (CreateMultipleSandbox w sdef origin nodes).trace) ∧
      (∀ l, Event.RunParallelTasksByPriority l ∉ (CreateMultipleSandbox w sdef origin nodes).trace) ∧
      (∀ dir item, Event.UpdateCatalog dir item ∉ (CreateMultipleSandbox w sdef origin nodes).trace)) ∧
    (∀ d, Event.CreateSingleSandbox d ∈ (CreateMultipleSandbox w sdef origin nodes).trace →
      2 ≤ nodes) := by
  have hinst : ∀ d, Event.CreateSingleSandbox d ∈ (CreateMultipleSandbox w sdef origin nodes).trace →
      2 ≤ nodes := by
    intro d hd
    by_contra hlt
    have := installerCalls_small w sdef origin nodes (by omega)
    rw [← mem_installerCalls, this] at hd
    cases hd
  have hexit : nodes < 2 → ∀ c msg,
      (CreateMultipleSandbox w sdef origin nodes).val = .error (.exit c msg) → c = 1 := by
    intro h c msg hv
    rcases run_shape w sdef origin nodes with ⟨s, hs, _, hv'⟩ | ⟨a, _, _, hv', _⟩ | ⟨a, _, _, hv', _⟩
    · rw [hv'] at hv; cases hv
      exact allocate_exit w sdef origin nodes c msg hs
    · rw [hv'] at hv; cases hv
    · rw [hv', (provision_small w a nodes h).2] at hv
      cases hv; rfl
  have hret : nodes < 2 → ∀ data, (CreateMultipleSandbox w sdef origin nodes).val ≠ .ok data := by
    intro h data hd
    obtain ⟨_, _, _, h2, _⟩ := run_ok w sdef origin nodes data hd
    omega
  refine ⟨fun h => ⟨?_, hret h, hexit h, ?_, ?_, ?_, ?_⟩, hinst⟩
  · cases hv : (CreateMultipleSandbox w sdef origin nodes).val with
    | ok data => exact absurd hv (hret h data)
    | error s =>
      cases s with
      | exit c msg =>
        have := hexit h c msg hv
        subst this
        exact Or.inl ⟨msg, rfl⟩
      | panic => exact Or.inr (Or.inl rfl)
      | callee => exact Or.inr (Or.inr rfl)
  · intro a ha hm
    rcases run_shape w sdef origin nodes with ⟨s, hs, _, _⟩ | ⟨a', ha', _, _, hm'⟩ | ⟨a', ha', _, hv', _⟩
    · rw [ha] at hs; cases hs
    · rw [ha] at ha'; cases ha'
      rw [hm] at hm'; cases hm'
    · rw [ha] at ha'; cases ha'
      rw [hv', (provision_small w a nodes h).2]
  · intro d hd
    have := hinst d hd
    omega
  · intro l hl
    obtain ⟨_, _, _, h2, _⟩ := final_event w sdef origin nodes _ hl rfl
    omega
  · intro dir item hl
    obtain ⟨_, _, _, h2, _⟩ := final_event w sdef origin nodes _ hl rfl
    omega

/-- The sample request with one node: lines 36-77 return and the run ends with the exit
of line 86. -/
theorem minimum_node_count_witness :
    (1 : Int) < 2 ∧
    (allocate sampleWorld sampleDef "5.7.21" 1).val = .ok sampleAllocated ∧
    (CreateMultipleSandbox sampleWorld sampleDef "5.7.21" 1).val
      = .error (.exit 1 onlyOneNode) :=
  ⟨by decide, rfl,
   ((minimum_node_count sampleWorld sampleDef "5.7.21" 1).1 (by decide)).2.2.2.1
     sampleAllocated rfl rfl⟩

/-- C6, counterexample.  In the sample run with two nodes the catalog writer is the
eleventh call; none of the ten calls before it is a call of the scheduler, which is
called only later, as the last call of the run. -/
theorem catalog_written_before_scheduling :
    (CreateMultipleSandbox sampleWorld sampleDef "5.7.21" 2).trace
      = (CreateMultipleSandbox sampleWorld sampleDef "5.7.21" 2).trace.take 10 ++
        .UpdateCatalog "/sb/multi_msb_5_7_21" sampleItem ::
        (CreateMultipleSandbox sampleWorld sampleDef "5.7.21" 2).trace.drop 11 ∧
    (∀ l, Event.RunParallelTasksByPriority l ∉
      (CreateMultipleSandbox sampleWorld sampleDef "5.7.21" 2).trace.take 10) ∧
    (∃ l, Event.RunParallelTasksByPriority l ∈
      (CreateMultipleSandbox sampleWorld sampleDef "5.7.21" 2).trace.drop 11) ∧
    ¬ (∀ (w : World) (sdef : SandboxDef) (origin : String) (nodes : Int) (pre post : List Event)
        (dir : String) (item : SandboxItem),
      (CreateMultipleSandbox w sdef origin nodes).trace = pre ++ .UpdateCatalog dir item :: post →
      ∃ l, Event.RunParallelTasksByPriority l ∈ pre) := by
  have h1 : (CreateMultipleSandbox sampleWorld sampleDef "5.7.21" 2).trace
      = (CreateMultipleSandbox sampleWorld sampleDef "5.7.21" 2).trace.take 10 ++
        .UpdateCatalog "/sb/multi_msb_5_7_21" sampleItem ::
        (CreateMultipleSandbox sampleWorld sampleDef "5.7.21" 2).trace.drop 11 := by decide
  have h2 : ∀ e ∈ (CreateMultipleSandbox sampleWorld sampleDef "5.7.21" 2).trace.take 10,
      e.isScheduler = false := by decide
  have h3 : ∀ l, Event.RunParallelTasksByPriority l ∉
      (CreateMultipleSandbox sampleWorld sampleDef "5.7.21" 2).trace.take 10 := by
    intro l hl
    have := h2 _ hl
    simp [Event.isScheduler] at this
  refine ⟨h1, h3, ⟨sampleSteps, by decide⟩, ?_⟩
  intro hall
  obtain ⟨l, hl⟩ := hall sampleWorld sampleDef "5.7.21" 2 _ _ _ _ h1
  exact h3 l hl

/-- C6, as the code has it.  In every run the scheduler is called only after the catalog
writer has been called and has returned, and the call of the scheduler is the last call
of the run; the catalog writer is called only after the installer has been called, and
has returned, for each of the nodes `1, ..., nodes`, and before any call of the
scheduler. -/
theorem scheduling_after_catalog (w : World) (sdef : SandboxDef) (origin : String)
    (nodes : Int) (pre post : List Event) :
    (∀ l, (CreateMultipleSandbox w sdef origin nodes).trace
        = pre ++ .RunParallelTasksByPriority l :: post →
      post = [] ∧ ∃ dir item, Event.UpdateCatalog dir item ∈ pre ∧
        w.UpdateCatalog dir item = true) ∧
    (∀ dir item, (CreateMultipleSandbox w sdef origin nodes).trace
        = pre ++ .UpdateCatalog dir item :: post →
      (∀ l, Event.RunParallelTasksByPriority l ∉ pre) ∧
      (installerCalls pre).map (fun d => d.NodeNum) = ordinals nodes ∧
      ∀ d ∈ installerCalls pre, (w.CreateSingleSandbox d).isSome = true) := by
  constructor
  · intro l h
    have hmem : Event.RunParallelTasksByPriority l ∈
        (CreateMultipleSandbox w sdef origin nodes).trace := by rw [h]; simp
    obtain ⟨a, st, ha, hN, hst, hfin, ht⟩ := final_event w sdef origin nodes _ hmem rfl
    have hnot : Event.RunParallelTasksByPriority l ∉ (allocate w sdef origin nodes).trace ++
        (.Mkdir a.sdef.SandboxDir :: .AddToCleanupStack .Rmdir "Rmdir" a.sdef.SandboxDir ::
          (loopOf w a nodes).trace) := by
      intro hc
      simp only [List.mem_append, List.mem_cons, reduceCtorEq, false_or] at hc
      rcases hc with hc | hc
      · have := allocate_isCheck w sdef origin nodes _ hc
        simp [Event.isCheck] at this
      · have := nodeLoop_isNode _ _ _ _ _ _ _ _ _ _ hc
        simp [Event.isNode] at this
    rw [ht] at h
    obtain ⟨B₁, hpre, hB⟩ := split_left h hnot
    obtain ⟨hB₁, _, hpost⟩ := finish_split_scheduler w st _ l B₁ post hB
    refine ⟨hpost, st.sdef.SandboxDir, st.sb_item, ?_, finish_catalog_returned w st _ l hfin⟩
    rw [hpre, hB₁]
    simp [finishHead]
  · intro dir item h
    have hmem : Event.UpdateCatalog dir item ∈
        (CreateMultipleSandbox w sdef origin nodes).trace := by rw [h]; simp
    obtain ⟨a, st, ha, hN, hst, hfin, ht⟩ := final_event w sdef origin nodes _ hmem rfl
    have hnot : Event.UpdateCatalog dir item ∉ (allocate w sdef origin nodes).trace ++
        (.Mkdir a.sdef.SandboxDir :: .AddToCleanupStack .Rmdir "Rmdir" a.sdef.SandboxDir ::
          (loopOf w a nodes).trace) := by
      intro hc
      simp only [List.mem_append, List.mem_cons, reduceCtorEq, false_or] at hc
      rcases hc with hc | hc
      · have := allocate_isCheck w sdef origin nodes _ hc
        simp [Event.isCheck] at this
      · have := nodeLoop_isNode _ _ _ _ _ _ _ _ _ _ hc
        simp [Event.isNode] at this
    rw [ht] at h
    obtain ⟨B₁, hpre, hB⟩ := split_left h hnot
    have hB₁ := finish_split_catalog w st _ dir item B₁ post hB
    obtain ⟨hcalls, ⟨results, hres, _⟩, _⟩ := loopOf_ok w a nodes st (by omega) hst
    have hic : installerCalls pre = installerCalls (loopOf w a nodes).trace := by
      rw [hpre, hB₁, installerCalls_append, installerCalls_append, installerCalls_allocate]
      simp [installerCalls]
    refine ⟨?_, ?_, ?_⟩
    · intro l hl
      rw [hpre, hB₁, List.mem_append] at hl
      rcases hl with hl | hl
      · simp only [List.mem_append, List.mem_cons, reduceCtorEq, false_or] at hl
        rcases hl with hl | hl
        · have := allocate_isCheck w sdef origin nodes _ hl
          simp [Event.isCheck] at this
        · have := nodeLoop_isNode _ _ _ _ _ _ _ _ _ _ hl
          simp [Event.isNode] at this
      · simp at hl
    · rw [hic, hcalls, List.map_map]
      conv_rhs => rw [← List.map_id (ordinals nodes)]
      apply List.map_congr_left
      intro i _
      simp [nodeOf_nodeNum]
    · intro d hd
      rw [hic] at hd
      have : w.CreateSingleSandbox d ∈ (installerCalls (loopOf w a nodes).trace).map
          w.CreateSingleSandbox := List.mem_map_of_mem _ hd
      rw [hres, List.mem_map] at this
      obtain ⟨r, _, hr⟩ := this
      rw [← hr]; rfl

/-- The sample run with two nodes: the scheduler call is the twentieth and last call,
and the catalog writer was called before it. -/
theorem scheduling_after_catalog_witness :
    (CreateMultipleSandbox sampleWorld sampleDef "5.7.21" 2).trace
      = (CreateMultipleSandbox sampleWorld sampleDef "5.7.21" 2).trace.take 19 ++
        .RunParallelTasksByPriority sampleSteps :: [] ∧
    ∃ dir item,
      Event.UpdateCatalog dir item ∈ (CreateMultipleSandbox sampleWorld sampleDef "5.7.21" 2).trace.take 19 ∧
      sampleWorld.UpdateCatalog dir item = true :=
  ⟨by decide,
   ((scheduling_after_catalog sampleWorld sampleDef "5.7.21" 2
      ((CreateMultipleSandbox sampleWorld sampleDef "5.7.21" 2).trace.take 19) []).1 sampleSteps
        (by decide)).2⟩

/-- C7. In every run, at every call of the single-node installer the directory of the
group has been created (`common.Mkdir` was called and returned) and the removal of that
same directory has been pushed on the cleanup stack, in this order; and whenever a
cleanup action is pushed, it is `common.Rmdir` on the directory whose creation is the
call just before and has returned. -/
theorem cleanup_registered_before_installer (w : World) (sdef : SandboxDef) (origin : String)
    (nodes : Int) (pre post : List Event) :
    (∀ d, (CreateMultipleSandbox w sdef origin nodes).trace = pre ++ .CreateSingleSandbox d :: post →
      w.Mkdir d.SandboxDir = true ∧
      ∃ p₁ p₂, pre = p₁ ++ .Mkdir d.SandboxDir ::
        .AddToCleanupStack .Rmdir "Rmdir" d.SandboxDir :: p₂) ∧
    (∀ fn name arg,
      (CreateMultipleSandbox w sdef origin nodes).trace
        = pre ++ .AddToCleanupStack fn name arg :: post →
      fn = .Rmdir ∧ name = "Rmdir" ∧ w.Mkdir arg = true ∧
      ∃ p₁, pre = p₁ ++ [.Mkdir arg] ∧ ∀ e ∈ p₁, e.isCheck = true) := by
  constructor
  · intro d h
    have hmem : Event.CreateSingleSandbox d ∈ (CreateMultipleSandbox w sdef origin nodes).trace := by
      rw [h]; simp
    have hnot : Event.CreateSingleSandbox d ∉ (allocate w sdef origin nodes).trace := by
      intro hc
      have := allocate_isCheck w sdef origin nodes _ hc
      simp [Event.isCheck] at this
    rcases run_shape w sdef origin nodes with ⟨s, _, ht, _⟩ | ⟨a, _, ht, _⟩ | ⟨a, ha, ht, _, hm⟩
    · rw [ht] at hmem; exact absurd hmem hnot
    · rw [ht] at hmem
      simp only [List.mem_append, List.mem_singleton, reduceCtorEq, or_false] at hmem
      exact absurd hmem hnot
    · obtain ⟨i, _, _, hd⟩ := mem_installerCalls_run w sdef origin nodes a ha d
        ((mem_installerCalls _ _).2 hmem)
      have hdir : d.SandboxDir = a.sdef.SandboxDir := by rw [hd, nodeOf_sandboxDir]
      rw [ht] at h
      obtain ⟨B₁, hpre, hB⟩ := split_left h hnot
      rw [hdir]
      refine ⟨hm, (allocate w sdef origin nodes).trace, ?_⟩
      cases B₁ with
      | nil => simp at hB
      | cons x B₂ =>
        cases B₂ with
        | nil => simp at hB
        | cons y B₃ =>
          simp only [List.cons_append, List.cons.injEq] at hB
          exact ⟨B₃, by rw [hpre, ← hB.1, ← hB.2.1]⟩
  · intro fn name arg h
    have hmem : Event.AddToCleanupStack fn name arg ∈
        (CreateMultipleSandbox w sdef origin nodes).trace := by
      rw [h]; simp
    have hnot : Event.AddToCleanupStack fn name arg ∉ (allocate w sdef origin nodes).trace := by
      intro hc
      have := allocate_isCheck w sdef origin nodes _ hc
      simp [Event.isCheck] at this
    rcases run_shape w sdef origin nodes with ⟨s, _, ht, _⟩ | ⟨a, _, ht, _⟩ | ⟨a, ha, ht, _, hm⟩
    · rw [ht] at hmem; exact absurd hmem hnot
    · rw [ht] at hmem
      simp only [List.mem_append, List.mem_singleton, reduceCtorEq, or_false] at hmem
      exact absurd hmem hnot
    · rw [ht] at h
      obtain ⟨B₁, hpre, hB⟩ := split_left h hnot
      have hprov : Event.AddToCleanupStack fn name arg ∉ (provision w a nodes).trace := by
        intro hc
        by_cases hN : nodes < 2
        · rw [(provision_small w a nodes hN).1] at hc; cases hc
        · rw [provision_large w a nodes (by omega), Run.mem_trace_bind] at hc
          rcases hc with hc | ⟨st, _, hc⟩
          · have := nodeLoop_isNode _ _ _ _ _ _ _ _ _ _ hc
            simp [Event.isNode] at this
          · have := finish_isFinal _ _ _ _ hc
            simp [Event.isFinal] at this
      cases B₁ with
      | nil => simp at hB
      | cons x B₂ =>
        cases B₂ with
        | nil =>
          simp only [List.cons_append, List.nil_append, List.cons.injEq,
            Event.AddToCleanupStack.injEq] at hB
          obtain ⟨hx, ⟨_, h2, h3⟩, _⟩ := hB
          subst h2 h3 hx
          cases fn
          exact ⟨rfl, rfl, hm, _, hpre, allocate_isCheck w sdef origin nodes⟩
        | cons y B₃ =>
          simp only [List.cons_append, List.cons.injEq] at hB
          have : Event.AddToCleanupStack fn name arg ∈ (provision w a nodes).trace := by
            rw [hB.2.2]; simp
          exact absurd this hprov

/-- The sample run with two nodes: the first installer call is the sixth call, after the
directory creation and the cleanup registration. -/
theorem cleanup_registered_before_installer_witness :
    (CreateMultipleSandbox sampleWorld sampleDef "5.7.21" 2).trace
      = (CreateMultipleSandbox sampleWorld sampleDef "5.7.21" 2).trace.take 5 ++
        .CreateSingleSandbox (nodeOf sampleWorld sampleAllocated 1) ::
        (CreateMultipleSandbox sampleWorld sampleDef "5.7.21" 2).trace.drop 6 ∧
    sampleWorld.Mkdir (nodeOf sampleWorld sampleAllocated 1).SandboxDir = true ∧
    ∃ p₁ p₂, (CreateMultipleSandbox sampleWorld sampleDef "5.7.21" 2).trace.take 5
      = p₁ ++ .Mkdir (nodeOf sampleWorld sampleAllocated 1).SandboxDir ::
        .AddToCleanupStack .Rmdir "Rmdir" (nodeOf sampleWorld sampleAllocated 1).SandboxDir :: p₂ :=
  ⟨by decide,
   (cleanup_registered_before_installer sampleWorld sampleDef "5.7.21" 2
      ((CreateMultipleSandbox sampleWorld sampleDef "5.7.21" 2).trace.take 5)
      ((CreateMultipleSandbox sampleWorld sampleDef "5.7.21" 2).trace.drop 6)).1 _ (by decide)⟩

/-- C8. A run with `nodes ≥ 2` that returns has called the single-node installer exactly
`nodes` times, for the ordinals `1, ..., nodes` in increasing order; the scheduler is
called exactly once, as the last call of the run and so after every installer call,
on the concatenation, in ordinal order, of the execution lists that these installer
calls returned. -/
theorem aggregation_and_single_scheduling (w : World) (sdef : SandboxDef) (origin : String)
    (nodes : Int) (data : MultiData) (hN : 2 ≤ nodes)
    (h : (CreateMultipleSandbox w sdef origin nodes).val = .ok data) :
    (installerCalls (CreateMultipleSandbox w sdef origin nodes).trace).length = nodes.toNat ∧
    (installerCalls (CreateMultipleSandbox w sdef origin nodes).trace).map (fun d => d.NodeNum)
      = ordinals nodes ∧
    ∃ (results : List (List ExecutionList)) (pre : List Event),
      (installerCalls (CreateMultipleSandbox w sdef origin nodes).trace).map w.CreateSingleSandbox
        = results.map some ∧
      (CreateMultipleSandbox w sdef origin nodes).trace
        = pre ++ [.RunParallelTasksByPriority results.flatten] ∧
      (∀ l, Event.RunParallelTasksByPriority l ∉ pre) ∧
      installerCalls pre = installerCalls (CreateMultipleSandbox w sdef origin nodes).trace := by
  have _ := hN
  obtain ⟨a, st, ha, hst, hc1, hc2⟩ := installerCalls_ok w sdef origin nodes data h
  obtain ⟨a', st', ha', hN', hst', hd, ht⟩ := run_ok w sdef origin nodes data h
  rw [ha] at ha'; cases ha'
  rw [hst] at hst'; cases hst'
  obtain ⟨_, ⟨results, hr1, hr2⟩, _, _, _⟩ := loopOf_ok w a nodes st (by omega) hst
  refine ⟨by rw [hc2]; simp [ordinals_length], ?_, results,
    (allocate w sdef origin nodes).trace ++
      (.Mkdir a.sdef.SandboxDir :: .AddToCleanupStack .Rmdir "Rmdir" a.sdef.SandboxDir ::
        ((loopOf w a nodes).trace ++ finishHead st data)), ?_, ?_, ?_, ?_⟩
  · rw [hc2, List.map_map]
    conv_rhs => rw [← List.map_id (ordinals nodes)]
    apply List.map_congr_left
    intro i _
    simp [nodeOf_nodeNum]
  · rw [hc1]; exact hr1
  · rw [ht, hr2]
  · intro l hl
    simp only [List.mem_append, List.mem_cons] at hl
    rcases hl with hl | hl | hl | hl | hl
    · have := allocate_isCheck w sdef origin nodes _ hl
      simp [Event.isCheck] at this
    · cases hl
    · cases hl
    · have := nodeLoop_isNode _ _ _ _ _ _ _ _ _ _ hl
      simp [Event.isNode] at this
    · simp [finishHead] at hl
  · rw [ht, installerCalls_append]
    simp [installerCalls]

/-- The sample run with three nodes returns: three installer calls, then one scheduler
call on the six collected steps. -/
theorem aggregation_and_single_scheduling_witness :
    (2 : Int) ≤ 3 ∧
    (∃ data, (CreateMultipleSandbox sampleWorld sampleDef "5.7.21" 3).val = .ok data) ∧
    (installerCalls (CreateMultipleSandbox sampleWorld sampleDef "5.7.21" 3).trace).length = 3 ∧
    (installerCalls (CreateMultipleSandbox sampleWorld sampleDef "5.7.21" 3).trace).map
      (fun d => d.NodeNum) = ordinals 3 :=
  ⟨by decide, ⟨_, rfl⟩,
   (aggregation_and_single_scheduling sampleWorld sampleDef "5.7.21" 3 _ (by decide) rfl).1,
   (aggregation_and_single_scheduling sampleWorld sampleDef "5.7.21" 3 _ (by decide) rfl).2.1⟩


theorem nodeDef_fields (w : World) (sb_type node_label : String) (base_port base_mysqlx_port : Int)
    (s : SandboxDef) (i : Int) :
    (nodeDef w sb_type node_label base_port base_mysqlx_port s i).ServerId = i * 100 ∧
    (nodeDef w sb_type node_label base_port base_mysqlx_port s i).NodeNum = i ∧
    (nodeDef w sb_type node_label base_port base_mysqlx_port s i).DirName
      = node_label ++ toString i := by
  unfold nodeDef
  by_cases h : w.GreaterOrEqualVersion s.Version [8, 0, 11] = true <;> simp [h]

/-- C9. The assignments made for node `i` give the server id `i * 100`, whatever the
world, the base ports and the description they start from; in every run the installer
calls carry the ordinals `1, 2, ...` in this order (all of `1, ..., nodes` when the run
returns), each call carries the server id `ordinal * 100` and the directory name made of
the node label followed by the decimal ordinal, and the server ids of the calls are
pairwise distinct. -/
theorem node_identity (w : World) (sdef : SandboxDef) (origin : String) (nodes : Int) :
    (∀ (w' : World) (sb_type node_label : String) (base_port base_mysqlx_port : Int)
        (s : SandboxDef) (i : Int),
      (nodeDef w' sb_type node_label base_port base_mysqlx_port s i).ServerId = i * 100) ∧
    (installerCalls (CreateMultipleSandbox w sdef origin nodes).trace).map (fun d => d.NodeNum)
      <+: ordinals nodes ∧
    (∀ data, (CreateMultipleSandbox w sdef origin nodes).val = .ok data →
      (installerCalls (CreateMultipleSandbox w sdef origin nodes).trace).map (fun d => d.NodeNum)
        = ordinals nodes) ∧
    (∀ d ∈ installerCalls (CreateMultipleSandbox w sdef origin nodes).trace,
      d.ServerId = d.NodeNum * 100 ∧
      d.DirName = w.Defaults.NodePrefix ++ toString d.NodeNum) ∧
    ((installerCalls (CreateMultipleSandbox w sdef origin nodes).trace).map
      (fun d => d.ServerId)).Nodup := by
  refine ⟨fun w' sb_type node_label bp bmp s i => (nodeDef_fields w' sb_type node_label bp bmp s i).1,
    ?_⟩
  cases ha : (allocate w sdef origin nodes).val with
  | error s =>
    have hnil : installerCalls (CreateMultipleSandbox w sdef origin nodes).trace = [] := by
      rcases run_shape w sdef origin nodes with ⟨s, _, ht, _⟩ | ⟨a, ha', _, _⟩ | ⟨a, ha', _, _⟩
      · rw [ht, installerCalls_allocate]
      · rw [ha] at ha'; cases ha'
      · rw [ha] at ha'; cases ha'
    have hv : ∀ data, (CreateMultipleSandbox w sdef origin nodes).val ≠ .ok data := by
      intro data h
      obtain ⟨a, _, ha', _⟩ := run_ok w sdef origin nodes data h
      rw [ha] at ha'; cases ha'
    rw [hnil]
    exact ⟨List.nil_prefix, fun data h => absurd h (hv data), by simp, by simp⟩
  | ok a =>
    have hpre := installerCalls_initial w sdef origin nodes a ha
    have hnum : ((ordinals nodes).map (nodeOf w a)).map (fun d => d.NodeNum) = ordinals nodes := by
      rw [List.map_map]
      conv_rhs => rw [← List.map_id (ordinals nodes)]
      apply List.map_congr_left
      intro i _
      simp [nodeOf_nodeNum]
    have hsid : ((ordinals nodes).map (nodeOf w a)).map (fun d => d.ServerId)
        = (ordinals nodes).map (fun i => i * 100) := by
      rw [List.map_map]
      apply List.map_congr_left
      intro i _
      simp [nodeOf_serverId]
    refine ⟨?_, ?_, ?_, ?_⟩
    · obtain ⟨t, ht⟩ := hpre
      exact ⟨t.map (fun d => d.NodeNum), by rw [← hnum, ← ht, List.map_append]⟩
    · intro data h
      obtain ⟨a', st, ha', _, _, hc⟩ := installerCalls_ok w sdef origin nodes data h
      rw [ha] at ha'; cases ha'
      rw [hc, hnum]
    · intro d hd
      obtain ⟨i, _, _, rfl⟩ := mem_installerCalls_run w sdef origin nodes a ha d hd
      rw [nodeOf_serverId, nodeOf_nodeNum, nodeOf_dirName]
      exact ⟨rfl, rfl⟩
    · have hsub : ((installerCalls (CreateMultipleSandbox w sdef origin nodes).trace).map
          (fun d => d.ServerId)) <+: ((ordinals nodes).map (nodeOf w a)).map (fun d => d.ServerId) := by
        obtain ⟨t, ht⟩ := hpre
        exact ⟨t.map (fun d => d.ServerId), by rw [← ht, List.map_append]⟩
      refine List.Nodup.sublist hsub.sublist ?_
      rw [hsid]
      refine List.Nodup.map ?_ (ordinals_nodup nodes)
      intro x y hxy
      have : x * 100 = y * 100 := hxy
      omega

/-- The sample run with three nodes: server ids 100, 200, 300 and directories
`node1`, `node2`, `node3`. -/
theorem node_identity_witness :
    (installerCalls (CreateMultipleSandbox sampleWorld sampleDef "5.7.21" 3).trace).map
        (fun d => (d.NodeNum, d.ServerId, d.DirName))
      = [(1, 100, "node1"), (2, 200, "node2"), (3, 300, "node3")] ∧
    (installerCalls (CreateMultipleSandbox sampleWorld sampleDef "5.7.21" 3).trace).map
        (fun d => d.NodeNum) = ordinals 3 :=
  ⟨by decide, (node_identity sampleWorld sampleDef "5.7.21" 3).2.2.1 _ rfl⟩


/-- A run that makes a call of lines 172-191 has made the first of them, with the
variables left by the node loop. -/
theorem finish_head_mem (w : World) (st : LoopState) (data : MultiData) (e : Event)
    (he : e ∈ (finish w st data).trace) :
    .WriteSandboxDescription st.sdef.SandboxDir st.sb_desc ∈ (finish w st data).trace := by
  obtain ⟨t, ht⟩ := finish_initial w st data
  cases hf : (finish w st data).trace with
  | nil => rw [hf] at he; cases he
  | cons x xs =>
    rw [hf] at ht
    simp only [finishHead, List.cons_append, List.cons.injEq] at ht
    rw [ht.1]
    exact List.mem_cons_self _ _

/-- C10. In a run that reaches the catalog write `UpdateCatalog(dir, item)`, the sandbox
description written just before carries the same port list as the catalog item; the
list has, for each node `i = 1, ..., nodes` in order, the port `base_port + i`, followed
by `base_mysqlx_port + i` (Go values) exactly when the version is at least 8.0.11 and
`DisableMysqlX` is false; when the version is below 8.0.11 the list is exactly the `nodes` primary ports
and every installer call carries the `MysqlXPort` of the request unchanged. -/
theorem recorded_ports (w : World) (sdef : SandboxDef) (origin : String) (nodes : Int)
    (dir : String) (item : SandboxItem)
    (h : .UpdateCatalog dir item ∈ (CreateMultipleSandbox w sdef origin nodes).trace) :
    ∃ (a : Allocated) (desc : SandboxDescription),
      (allocate w sdef origin nodes).val = .ok a ∧
      .WriteSandboxDescription dir desc ∈ (CreateMultipleSandbox w sdef origin nodes).trace ∧
      item.Port = desc.Port ∧
      item.Port = ((ordinals nodes).map (fun i =>
        if w.GreaterOrEqualVersion a.sdef.Version [8, 0, 11] = true ∧ a.sdef.DisableMysqlX = false
        then [add64 a.base_port i, add64 a.base_mysqlx_port i] else [add64 a.base_port i])).flatten ∧
      (w.GreaterOrEqualVersion a.sdef.Version [8, 0, 11] = false →
        item.Port = (ordinals nodes).map (fun i => add64 a.base_port i) ∧
        ∀ d ∈ installerCalls (CreateMultipleSandbox w sdef origin nodes).trace,
          d.MysqlXPort = a.sdef.MysqlXPort) := by
  obtain ⟨a, st, ha, hN, hst, hfin, ht⟩ := final_event w sdef origin nodes _ h rfl
  obtain ⟨_, _, hitem, hdesc, hdir⟩ := loopOf_ok w a nodes st (by omega) hst
  have hmem := (finish_initial w st (dataOf w a st)).subset hfin
  simp only [finishHead, List.cons_append, List.nil_append, List.mem_cons, List.mem_singleton,
    Event.UpdateCatalog.injEq, reduceCtorEq, false_or, or_false, List.not_mem_nil] at hmem
  obtain ⟨rfl, rfl⟩ := hmem
  have hports : ∀ i, nodePorts w a.base_port a.base_mysqlx_port a.sdef i =
      (if w.GreaterOrEqualVersion a.sdef.Version [8, 0, 11] = true ∧ a.sdef.DisableMysqlX = false
        then [add64 a.base_port i, add64 a.base_mysqlx_port i] else [add64 a.base_port i]) := by
    intro i
    unfold nodePorts
    by_cases h1 : w.GreaterOrEqualVersion a.sdef.Version [8, 0, 11] = true <;>
      by_cases h2 : a.sdef.DisableMysqlX = true <;> simp [h1, h2]
  refine ⟨a, st.sb_desc, ha, ?_, hdesc.symm, ?_, ?_⟩
  · rw [ht]
    exact List.mem_append_right _ (finish_head_mem w st _ _ hfin)
  · rw [hitem]
    simp only [hports]
  · intro hv
    refine ⟨?_, ?_⟩
    · rw [hitem]
      simp only [hports, hv, Bool.false_eq_true, false_and, if_false]
      induction ordinals nodes with
      | nil => rfl
      | cons x xs ih => simp [ih]
    · intro d hd
      obtain ⟨i, _, _, rfl⟩ := mem_installerCalls_run w sdef origin nodes a ha d hd
      exact nodeOf_mysqlXPort w a i hv

/-- The sample run for version 8.0.11 with two nodes reaches the catalog write with the
ports 20002, 30002, 20003, 30003. -/
theorem recorded_ports_witness :
    Event.UpdateCatalog "/sb/multi_msb_8_0_11" sampleItem8 ∈
      (CreateMultipleSandbox sampleWorld sampleDef8 "8.0.11" 2).trace ∧
    ∃ (a : Allocated) (desc : SandboxDescription),
      (allocate sampleWorld sampleDef8 "8.0.11" 2).val = .ok a ∧
      .WriteSandboxDescription "/sb/multi_msb_8_0_11" desc ∈
        (CreateMultipleSandbox sampleWorld sampleDef8 "8.0.11" 2).trace ∧
      sampleItem8.Port = desc.Port ∧
      sampleItem8.Port = ((ordinals 2).map (fun i =>
        if sampleWorld.GreaterOrEqualVersion a.sdef.Version [8, 0, 11] = true ∧
            a.sdef.DisableMysqlX = false
        then [add64 a.base_port i, add64 a.base_mysqlx_port i] else [add64 a.base_port i])).flatten ∧
      (sampleWorld.GreaterOrEqualVersion a.sdef.Version [8, 0, 11] = false →
        sampleItem8.Port = (ordinals 2).map (fun i => add64 a.base_port i) ∧
        ∀ d ∈ installerCalls (CreateMultipleSandbox sampleWorld sampleDef8 "8.0.11" 2).trace,
          d.MysqlXPort = a.sdef.MysqlXPort) :=
  ⟨by decide, recorded_ports sampleWorld sampleDef8 "8.0.11" 2 _ _ (by decide)⟩


end DBDeployer
